import Mathlib

/-!
Verification development for the metalab-atlas query/aggregation layer.

The Python sources (atlas/pg_store.py, backend/atlas/aggregate.py,
atlas/routers/histogram.py and the pydantic models) are shallowly embedded:

* Python values flowing through filters, JSON payloads and SQL rows are
  modelled by the inductive type `PyVal`; floats are idealised as rationals
  and JSON objects as ordered association lists.
* Functions that can raise return `Option` (`Option.none` models a raised
  exception); pure functions stay pure.
* SQL execution is modelled by an oracle carried in `PgDB`; the SQL text a
  function would execute is built faithfully (whitespace of multi-line SQL
  literals is normalised to single spaces) and returned in an execution log
  where a claim needs it.

Deliberate, documented modelling simplifications (none is exercised by a
claim): `float(...)` on numeric strings is treated as failing, float
formatting is rendered through the canonical rational representation,
`json.loads` on textual cells is treated as failing (the database driver
already returns decoded objects), datetime values are carried as their
normalised ISO strings, and `str.lower` is ASCII-only.
-/

namespace Atlas

/-- A single-quote character as a string (used when building SQL text). -/
def sq : String := "\x27"

/-- Join a list of strings with a separator (Python `sep.join(parts)`). -/
def joinSep (sep : String) : List String → String
  | [] => ""
  | [x] => x
  | x :: xs => x ++ sep ++ joinSep sep xs

/-- `", ".join(["%s"] * n)`: the parameter placeholder list of arity `n`. -/
def placeholders (n : Nat) : String :=
  joinSep ", " (List.replicate n "%s")

/-- Helper for `splitFirstDot`: split a character list at the first dot. -/
def splitDotAux : List Char → Option (List Char × List Char)
  | [] => Option.none
  | c :: cs =>
    if c = '.' then some ([], cs)
    else
      match splitDotAux cs with
      | some (l, r) => some (c :: l, r)
      | Option.none => Option.none

/-- Python `field_path.split(".", 1)` restricted to the `len(parts) == 2`
case: returns the text before and after the first dot, or `Option.none`
when the string has no dot. -/
def splitFirstDot (s : String) : Option (String × String) :=
  match splitDotAux s.toList with
  | some (l, r) => some (⟨l⟩, ⟨r⟩)
  | Option.none => Option.none

/-- Boolean string-beginning test (Python `str.startswith`). -/
def strStarts (s pre : String) : Bool :=
  pre.toList.isPrefixOf s.toList

/-- Helper for `strContainsSub`: scan for `sub` at every suffix. -/
def containsSubAux (sub : List Char) : List Char → Bool
  | [] => sub.isEmpty
  | c :: cs => sub.isPrefixOf (c :: cs) || containsSubAux sub cs

/-- Boolean substring test (Python `needle in haystack`). -/
def strContainsSub (s sub : String) : Bool :=
  containsSubAux sub.toList s.toList

/-- ASCII lower-casing of a character (model of Python `str.lower`). -/
def asciiLower (c : Char) : Char :=
  if 65 ≤ c.toNat ∧ c.toNat ≤ 90 then Char.ofNat (c.toNat + 32) else c

/-- ASCII lower-casing of a string. -/
def strLower (s : String) : String :=
  ⟨s.toList.map asciiLower⟩

/-- Lexicographic (code-point) string comparison, Python `a <= b`. -/
def charsLe : List Char → List Char → Bool
  | [], _ => true
  | _ :: _, [] => false
  | a :: as, b :: bs =>
    if a.toNat < b.toNat then true
    else if b.toNat < a.toNat then false
    else charsLe as bs

/-- String `<=` on code points. -/
def strLe (a b : String) : Bool :=
  charsLe a.toList b.toList

/-- Python `s.replace("'", "''")` (SQL single-quote escaping). -/
def escSq (s : String) : String :=
  ⟨s.toList.flatMap (fun c => if c = '\x27' then [c, c] else [c])⟩

/-- Python `s.replace("Z", "+00:00")` (ISO timestamp normalisation used
before `datetime.fromisoformat`). -/
def replaceZ (s : String) : String :=
  ⟨s.toList.flatMap (fun c => if c = 'Z' then "+00:00".toList else [c])⟩


/-! ## Python values

`PyVal` models the dynamically-typed values the engine handles: filter
values, JSONB payload contents and SQL row cells.  Floats are idealised as
rationals, datetimes as their ISO strings, JSON objects as ordered
association lists (a JSON `null` stored under a key and an absent key are
both observed as `None` through `dict.get`, matching Python). -/

inductive PyVal where
  | none
  | b (v : Bool)
  | i (v : Int)
  | f (v : Rat)
  | s (v : String)
  | dt (iso : String)
  | list (vs : List PyVal)
  | obj (kvs : List (String × PyVal))
deriving Repr, BEq

/-- Python `isinstance(value, (int, float))`; `bool` is a subclass of
`int`, so booleans count as numeric. -/
def PyVal.isNum : PyVal → Bool
  | .i _ => true
  | .f _ => true
  | .b _ => true
  | _ => false

/-- Python `float(value)`: succeeds on ints, floats and bools.  Numeric
strings (which `float` would also accept) are not modelled and map to
failure; no claim exercises them. -/
def pyFloat : PyVal → Option Rat
  | .i n => some (n : Rat)
  | .f q => some q
  | .b v => some (if v then 1 else 0)
  | _ => Option.none

/-- Python `value is None`. -/
def PyVal.isNone : PyVal → Bool
  | .none => true
  | _ => false

/-- Python `status == "running"` for a raw status value: string equality,
false for non-strings. -/
def isRunningVal : PyVal → Bool
  | .s v => v == "running"
  | _ => false

/-- Python truthiness. -/
def pyTruthy : PyVal → Bool
  | .none => false
  | .b v => v
  | .i n => n != 0
  | .f q => q != 0
  | .s v => v != ""
  | .dt _ => true
  | .list vs => !vs.isEmpty
  | .obj kvs => !kvs.isEmpty

mutual

/-- Python `str(value)`.  Int formatting is exact; float formatting is
modelled through the canonical rational representation (no claim depends
on numeral rendering). -/
def pyStr : PyVal → String
  | .none => "None"
  | .b true => "True"
  | .b false => "False"
  | .i n => toString n
  | .f q => toString q
  | .s v => v
  | .dt iso => iso
  | .list vs => "[" ++ pyStrList vs ++ "]"
  | .obj kvs => "\x7b" ++ pyStrObj kvs ++ "\x7d"

/-- Comma-joined `repr` of list elements (Python renders list elements
with `repr`). -/
def pyStrList : List PyVal → String
  | [] => ""
  | [v] => pyRepr v
  | v :: vs => pyRepr v ++ ", " ++ pyStrList vs

/-- Comma-joined `repr(k): repr(v)` of dict entries. -/
def pyStrObj : List (String × PyVal) → String
  | [] => ""
  | [(k, v)] => sq ++ k ++ sq ++ ": " ++ pyRepr v
  | (k, v) :: kvs => sq ++ k ++ sq ++ ": " ++ pyRepr v ++ ", " ++ pyStrObj kvs

/-- Python `repr(value)` to the extent `str` of containers needs it:
strings gain quotes, everything else falls back to `str`. -/
def pyRepr : PyVal → String
  | .s v => sq ++ v ++ sq
  | v => pyStr v

end

mutual

/-- Python `==` on values: cross-type numeric equality (`10 == 10.0 ==
True` style), structural equality elsewhere.  Dict equality is modelled
order-sensitively; unhashable values used as dict keys (which raise in
Python) are treated as ordinary distinct keys. -/
def pyEq : PyVal → PyVal → Bool
  | .i a, .i c => a == c
  | .i a, .f c => (a : Rat) == c
  | .i a, .b c => a == (if c then 1 else 0)
  | .f a, .i c => a == (c : Rat)
  | .f a, .f c => a == c
  | .f a, .b c => a == (if c then (1 : Rat) else 0)
  | .b a, .i c => (if a then (1 : Int) else 0) == c
  | .b a, .f c => (if a then (1 : Rat) else 0) == c
  | .b a, .b c => a == c
  | .s a, .s c => a == c
  | .dt a, .dt c => a == c
  | .list a, .list c => pyEqList a c
  | .obj a, .obj c => pyEqObj a c
  | .none, .none => true
  | _, _ => false

/-- Element-wise Python `==` on lists. -/
def pyEqList : List PyVal → List PyVal → Bool
  | [], [] => true
  | a :: as, c :: cs => pyEq a c && pyEqList as cs
  | _, _ => false

/-- Entry-wise Python `==` on dicts (order-sensitive model). -/
def pyEqObj : List (String × PyVal) → List (String × PyVal) → Bool
  | [], [] => true
  | (k1, v1) :: as, (k2, v2) :: cs => k1 == k2 && pyEq v1 v2 && pyEqObj as cs
  | _, _ => false

end

/-- Presence-aware dict lookup (first matching key). -/
def objFind : List (String × PyVal) → String → Option PyVal
  | [], _ => Option.none
  | (k, v) :: kvs, key => if k == key then some v else objFind kvs key

/-- Python `d.get(key)`: `None` both when the key is absent and when the
stored value is `None`. -/
def objGet (kvs : List (String × PyVal)) (key : String) : PyVal :=
  (objFind kvs key).getD PyVal.none

/-- Python `d.get(key, default)`: the default applies only when the key is
absent (a stored `None` is returned as `None`). -/
def objGetD (kvs : List (String × PyVal)) (key : String) (d : PyVal) : PyVal :=
  (objFind kvs key).getD d

/-- Python `len(value)` / `list(value)` for the iterables the filter
compiler meets: lists iterate as themselves, strings iterate as their
characters; everything else raises `TypeError`. -/
def pyIterList : PyVal → Option (List PyVal)
  | .list vs => some vs
  | .s v => some (v.toList.map (fun c => PyVal.s c.toString))
  | _ => Option.none

/-! ## Wire models (atlas/models.py) -/

/-- `RunStatus` enum. -/
inductive Status where
  | success
  | failed
  | cancelled
  | running
deriving Repr, DecidableEq

/-- The `.value` string of a `RunStatus`. -/
def Status.value : Status → String
  | .success => "success"
  | .failed => "failed"
  | .cancelled => "cancelled"
  | .running => "running"

/-- `RunStatus(x)`: enum lookup by value; raises on anything else. -/
def statusOfPy : PyVal → Option Status
  | .s "success" => some .success
  | .s "failed" => some .failed
  | .s "cancelled" => some .cancelled
  | .s "running" => some .running
  | _ => Option.none

/-- `FilterOp` enum (`in` is spelled `opIn`; Lean reserves the keyword). -/
inductive FilterOp where
  | eq
  | ne
  | lt
  | le
  | gt
  | ge
  | contains
  | opIn
deriving Repr, DecidableEq

/-- The `.value` string of a `FilterOp`. -/
def FilterOp.value : FilterOp → String
  | .eq => "eq"
  | .ne => "ne"
  | .lt => "lt"
  | .le => "le"
  | .gt => "gt"
  | .ge => "ge"
  | .contains => "contains"
  | .opIn => "in"

/-- `FieldFilter`: a dot-path field, an operator and a value. -/
structure FieldFilter where
  field : String
  op : FilterOp
  value : PyVal
deriving Repr

/-- `FilterSpec` (datetimes carried as ISO strings). -/
structure FilterSpec where
  experiment_id : Option String := Option.none
  status : Option (List Status) := Option.none
  started_after : Option String := Option.none
  started_before : Option String := Option.none
  field_filters : Option (List FieldFilter) := Option.none
deriving Repr

/-! ## Filter Compiler (PostgresStoreAdapter._build_field_filter) -/

/-- `PostgresStoreAdapter._RECORD_TABLE_COLUMNS`: record fields that exist
as physical table columns. -/
def recordTableColumns : List String :=
  ["run_id", "experiment_id", "status", "context_fingerprint",
   "params_fingerprint", "seed_fingerprint", "started_at", "finished_at",
   "duration_ms"]

/-- `_build_field_filter`: compile one field filter to a parameterised SQL
predicate fragment.  `Option.none` models a raised exception (e.g.
`float()` or `len()` on an incompatible value); `some ("", [])` is the
permissive "no predicate" result. -/
def buildFieldFilter (ff : FieldFilter) : Option (String × List PyVal) :=
  let value := ff.value
  match splitFirstDot ff.field with
  | Option.none => some ("", [])
  | some (ns, key) =>
    if ns = "record" then
      if recordTableColumns.contains key then
        let col := key
        match ff.op with
        | .eq => some (col ++ " = %s", [value])
        | .ne => some (col ++ " != %s", [value])
        | .lt => some (col ++ " < %s", [value])
        | .le => some (col ++ " <= %s", [value])
        | .gt => some (col ++ " > %s", [value])
        | .ge => some (col ++ " >= %s", [value])
        | .contains => some (col ++ "::text ILIKE %s", [.s ("%" ++ pyStr value ++ "%")])
        | .opIn =>
          match pyIterList value with
          | some vs => some (col ++ " IN (" ++ placeholders vs.length ++ ")", vs)
          | Option.none => Option.none
      else
        -- Field lives in record_json (tags, warnings, notes, error, ...);
        -- the full expression already carries the `r.` alias.
        let jsonbPath := "(r.record_json->" ++ sq ++ escSq key ++ sq ++ ")::text"
        match ff.op with
        | .eq => some (jsonbPath ++ " = %s", [.s (pyStr value)])
        | .ne => some (jsonbPath ++ " != %s", [.s (pyStr value)])
        | .contains => some (jsonbPath ++ " ILIKE %s", [.s ("%" ++ pyStr value ++ "%")])
        | .opIn =>
          match pyIterList value with
          | some vs =>
            some (jsonbPath ++ " IN (" ++ placeholders vs.length ++ ")",
                  vs.map (fun v => .s (pyStr v)))
          | Option.none => Option.none
        | _ => some ("", [])  -- lt/le/gt/ge on JSONB record fields
    else if ns = "params" ∨ ns = "metrics" then
      let jsonbPath :=
        if ns = "params" then
          "record_json->" ++ sq ++ "params_resolved" ++ sq ++ "->>" ++ sq ++ key ++ sq
        else
          "record_json->" ++ sq ++ "metrics" ++ sq ++ "->>" ++ sq ++ key ++ sq
      match ff.op with
      | .eq =>
        if value.isNum then some ("(" ++ jsonbPath ++ ")::numeric = %s", [value])
        else some (jsonbPath ++ " = %s", [.s (pyStr value)])
      | .ne =>
        if value.isNum then some ("(" ++ jsonbPath ++ ")::numeric != %s", [value])
        else some (jsonbPath ++ " != %s", [.s (pyStr value)])
      | .lt => (pyFloat value).map (fun q => ("(" ++ jsonbPath ++ ")::float < %s", [.f q]))
      | .le => (pyFloat value).map (fun q => ("(" ++ jsonbPath ++ ")::float <= %s", [.f q]))
      | .gt => (pyFloat value).map (fun q => ("(" ++ jsonbPath ++ ")::float > %s", [.f q]))
      | .ge => (pyFloat value).map (fun q => ("(" ++ jsonbPath ++ ")::float >= %s", [.f q]))
      | .contains => some (jsonbPath ++ " ILIKE %s", [.s ("%" ++ pyStr value ++ "%")])
      | .opIn =>
        match pyIterList value with
        | some vs =>
          some (jsonbPath ++ " IN (" ++ placeholders vs.length ++ ")",
                vs.map (fun v => .s (pyStr v)))
        | Option.none => Option.none
    else if ns = "derived" then
      some ("", [])  -- derived metrics live in a separate table (not joined)
    else
      some ("", [])

/-! ## SchemaScope (pg_store.SchemaScope) -/

/-- `SchemaScope`: the list of physical schemas a query spans. -/
structure SchemaScope where
  schemas : List String
deriving Repr, DecidableEq

/-- `SchemaScope.is_empty`. -/
def SchemaScope.isEmpty (scope : SchemaScope) : Bool :=
  scope.schemas.length == 0

/-- `SchemaScope.table(name, alias)`: a direct `schema.table` reference for
one schema, a parenthesised UNION ALL subquery for several, and a raised
`ValueError` (modelled `Option.none`) for an empty scope. -/
def SchemaScope.table (scope : SchemaScope) (name : String)
    (al : Option String := Option.none) : Option String :=
  match scope.schemas with
  | [] => Option.none
  | [s] =>
    let base := s ++ "." ++ name
    some (match al with
          | some a => base ++ " " ++ a
          | Option.none => base)
  | ss@(_ :: _ :: _) =>
    let unionParts := ss.map (fun s => "SELECT * FROM " ++ s ++ "." ++ name)
    let tableAlias := al.getD ("all_" ++ name)
    some ("(" ++ joinSep " UNION ALL " unionParts ++ ") AS " ++ tableAlias)

/-- `SchemaScope.single_schema`. -/
def SchemaScope.singleSchema (scope : SchemaScope) : Option String :=
  match scope.schemas with
  | [s] => some s
  | _ => Option.none

/-! ## Response records (atlas/models.py)

Pydantic validation is modelled shallowly: constructing a response record
from a value of the wrong shape fails (models a `ValidationError`). -/

/-- A datetime as the read path sees it: a normalised ISO string, or the
epoch fallback used when `started_at` is missing. -/
inductive DateTimeV where
  | iso (s : String)
  | epoch
deriving Repr, DecidableEq

/-- `ProvenanceInfo`. -/
structure ProvenanceInfo where
  code_hash : Option String := Option.none
  python_version : Option String := Option.none
  metalab_version : Option String := Option.none
  executor_id : Option String := Option.none
  host : Option String := Option.none
  extra : List (String × PyVal) := []
deriving Repr

/-- `ArtifactInfo`. -/
structure ArtifactInfo where
  artifact_id : String
  name : String
  kind : String
  format : String
  content_hash : Option String := Option.none
  size_bytes : Option Int := Option.none
  metadata : List (String × PyVal) := []
deriving Repr

/-- `RecordFields` (the `record.*` namespace of a run). -/
structure RecordFields where
  run_id : String
  experiment_id : String
  status : Status
  context_fingerprint : String
  params_fingerprint : String
  seed_fingerprint : String
  started_at : DateTimeV
  finished_at : Option DateTimeV := Option.none
  duration_ms : Option Int := Option.none
  provenance : ProvenanceInfo
  error : Option (List (String × PyVal)) := Option.none
  tags : List String := []
  warnings : List (List (String × PyVal)) := []
  notes : Option String := Option.none
deriving Repr

/-- `RunResponse`. -/
structure RunResponse where
  record : RecordFields
  params : List (String × PyVal) := []
  metrics : List (String × PyVal) := []
  derived_metrics : List (String × PyVal) := []
  artifacts : List ArtifactInfo := []
deriving Repr

/-! ### Pydantic-style field validation helpers -/

/-- Validate a required `str` field. -/
def asStr : PyVal → Option String
  | .s v => some v
  | _ => Option.none

/-- Validate a `str | None` field. -/
def asOptStr : PyVal → Option (Option String)
  | .none => some Option.none
  | .s v => some (some v)
  | _ => Option.none

/-- Validate an `int | None` field (pydantic accepts integral floats). -/
def asOptInt : PyVal → Option (Option Int)
  | .none => some Option.none
  | .i n => some (some n)
  | .f q => if q.den == 1 then some (some q.num) else Option.none
  | _ => Option.none

/-- Validate a `datetime | None` field after the converter's own string
parsing (`.dt` carries an already-normalised ISO string). -/
def asOptDT : PyVal → Option (Option DateTimeV)
  | .none => some Option.none
  | .dt t => some (some (.iso t))
  | .s t => some (some (.iso t))
  | _ => Option.none

/-- `experiment_id or ""` followed by `str` validation: falsy values
become the empty string, truthy non-strings fail validation. -/
def orEmptyStr (v : PyVal) : Option String :=
  if pyTruthy v then asStr v else some ""

/-- `_ensure_dict`: `None` becomes an empty dict, dicts pass through.  A
textual cell would go through `json.loads`, which the model treats as a
failure (the driver already returns decoded objects); any other value
fails. -/
def ensureDict : PyVal → Option (List (String × PyVal))
  | .none => some []
  | .obj kvs => some kvs
  | _ => Option.none

/-- `_ensure_list`: `None` becomes `[]`, lists pass through, others fail
(either `json.loads` or the list validation). -/
def ensureList : PyVal → Option (List PyVal)
  | .none => some []
  | .list vs => some vs
  | _ => Option.none

/-- Validate a `dict` element (for `warnings: list[dict]`). -/
def asObj : PyVal → Option (List (String × PyVal))
  | .obj kvs => some kvs
  | _ => Option.none

/-- The slim converter's `error` handling:
`error_json if isinstance(error_json, dict) else (json.loads(error_json)
if error_json else None)` followed by `dict | None` validation. -/
def errValOf : PyVal → Option (Option (List (String × PyVal)))
  | .obj kvs => some (some kvs)
  | v => if pyTruthy v then Option.none else some Option.none

/-- The slim converter's `notes` handling: strings pass through, `None`
stays `None`, anything else is `str(...)`-ified (total, never fails). -/
def notesOf : PyVal → Option String
  | .s v => some v
  | .none => Option.none
  | v => some (pyStr v)

/-- Build a `ProvenanceInfo` from a `provenance` dict the way both row
converters do (`prov_data.get(...)` for each field). -/
def provOf (prov : List (String × PyVal)) : Option ProvenanceInfo := do
  let code_hash ← asOptStr (objGet prov "code_hash")
  let python_version ← asOptStr (objGet prov "python_version")
  let metalab_version ← asOptStr (objGet prov "metalab_version")
  let executor_id ← asOptStr (objGet prov "executor_id")
  let host ← asOptStr (objGet prov "host")
  let extra ← match objFind prov "extra" with
    | Option.none => some []
    | some (.obj kvs) => some kvs
    | some _ => Option.none
  pure ⟨code_hash, python_version, metalab_version, executor_id, host, extra⟩

/-! ## Row converters (pg_store._slim_row_to_run_response,
pg_store._row_to_run_response)

The Python functions are single blocks; they are split here into small
named stages (scalar fields, identifier fields, JSON payload fields) with
identical semantics, because the Lean code generator degrades sharply on
long monadic chains.  Each stage cites the lines of pg_store.py it
embeds. -/

/-- The converters' `started_at` handling: parse ISO strings (after the
`Z` replacement), map a missing value to the epoch fallback, pass
datetimes through; anything else fails validation. -/
def startedOf : PyVal → Option DateTimeV
  | .s t => some (DateTimeV.iso (replaceZ t))
  | .none => some DateTimeV.epoch
  | .dt t => some (DateTimeV.iso t)
  | _ => Option.none

/-- The converters' `finished_at` pre-parsing: ISO strings are parsed,
everything else passes through untouched. -/
def finishedParse : PyVal → PyVal
  | .s t => .dt (replaceZ t)
  | v => v

/-- Monomorphic `mapM` for string validation (pydantic `list[str]`). -/
def mapStrsO : List PyVal → Option (List String)
  | [] => some []
  | v :: vs =>
    match asStr v, mapStrsO vs with
    | some r, some rs => some (r :: rs)
    | _, _ => Option.none

/-- Monomorphic `mapM` for dict validation (pydantic `list[dict]`). -/
def mapObjsO : List PyVal → Option (List (List (String × PyVal)))
  | [] => some []
  | v :: vs =>
    match asObj v, mapObjsO vs with
    | some r, some rs => some (r :: rs)
    | _, _ => Option.none

/-- Status/timestamp/duration stage shared by both converters: computes
`is_running = status == "running"` from the raw status value and
overrides `finished_at`/`duration_ms` to `None` for running runs before
validation (pg_store.py lines 676-694 and 765-794). -/
def scalarFieldsOf (status_raw started_raw finished_raw duration_raw : PyVal) :
    Option (Status × DateTimeV × Option DateTimeV × Option Int) := do
  let startedAt ← startedOf started_raw
  let finished1 := finishedParse finished_raw
  let isRunning := isRunningVal status_raw
  let status ← statusOfPy status_raw
  let finishedAt ← asOptDT (if isRunning then PyVal.none else finished1)
  let durationMs ← asOptInt (if isRunning then PyVal.none else duration_raw)
  pure (status, startedAt, finishedAt, durationMs)

/-- Identifier stage of the slim converter: `run_id` plus the
`<field> or ""` fallbacks (pg_store.py lines 785-791). -/
def slimIdsOf (run_id_c experiment_id_c context_fp_c params_fp_c seed_fp_c : PyVal) :
    Option (String × String × String × String × String) := do
  let run_id ← asStr run_id_c
  let experiment_id ← orEmptyStr experiment_id_c
  let context_fp ← orEmptyStr context_fp_c
  let params_fp ← orEmptyStr params_fp_c
  let seed_fp ← orEmptyStr seed_fp_c
  pure (run_id, experiment_id, context_fp, params_fp, seed_fp)

/-- JSON payload stage of the slim converter: the `_ensure_dict` /
`_ensure_list` parses and element validation (pg_store.py lines 737-763). -/
def slimJsonOf (params_c metrics_c tags_c error_c provenance_c warnings_c derived_c :
    PyVal) :
    Option (List (String × PyVal) × List (String × PyVal) × List String ×
            Option (List (String × PyVal)) × ProvenanceInfo ×
            List (List (String × PyVal)) × List (String × PyVal)) := do
  let params ← ensureDict params_c
  let metrics ← ensureDict metrics_c
  let tags0 ← ensureList tags_c
  let tags ← mapStrsO tags0
  let error ← errValOf error_c
  let provData ← ensureDict provenance_c
  let provenance ← provOf provData
  let warnings0 ← ensureList warnings_c
  let warnings ← mapObjsO warnings0
  let derived ← ensureDict derived_c
  pure (params, metrics, tags, error, provenance, warnings, derived)

/-- `_slim_row_to_run_response`: convert a projected 17-cell row (the
column order of the SELECT in `query_runs`) to a `RunResponse`.  A row of
any other arity fails the tuple unpacking; invalid cell contents fail the
corresponding parse/validation step. -/
def slimRowToRunResponse (row : List PyVal) : Option RunResponse :=
  match row with
  | [run_id_c, experiment_id_c, status_c, started_at_c, finished_at_c,
     duration_ms_c, context_fp_c, params_fp_c, seed_fp_c, params_c,
     metrics_c, tags_c, error_c, provenance_c, warnings_c, notes_c,
     derived_c] => do
    let (params, metrics, tags, error, provenance, warnings, derived) ←
      slimJsonOf params_c metrics_c tags_c error_c provenance_c warnings_c derived_c
    let (status, startedAt, finishedAt, durationMs) ←
      scalarFieldsOf status_c started_at_c finished_at_c duration_ms_c
    let (run_id, experiment_id, context_fp, params_fp, seed_fp) ←
      slimIdsOf run_id_c experiment_id_c context_fp_c params_fp_c seed_fp_c
    pure (RunResponse.mk
      (RecordFields.mk run_id experiment_id status context_fp params_fp
        seed_fp startedAt finishedAt durationMs provenance error tags
        warnings (notesOf notes_c))
      params metrics derived [])  -- list queries skip artifacts
  | _ => Option.none

/-- Build one `ArtifactInfo` from an artifact descriptor dict the way
`_row_to_run_response` does (pg_store.py lines 647-662). -/
def artifactOf (a : PyVal) : Option ArtifactInfo :=
  match a with
  | .obj o => do
    let artifact_id ← asStr (objGetD o "artifact_id" (.s ""))
    let name ← asStr (objGetD o "name" (.s ""))
    let kind ← asStr (objGetD o "kind" (.s ""))
    let format ← asStr (objGetD o "format" (.s ""))
    let content_hash ← asOptStr (objGet o "content_hash")
    let size_bytes ← asOptInt (objGet o "size_bytes")
    let metadata ← metadataOf (objFind o "metadata")
    pure (ArtifactInfo.mk artifact_id name kind format content_hash size_bytes metadata)
  | _ => Option.none
where
  /-- `a.get("metadata", {})` with underscore-prefixed keys dropped. -/
  metadataOf : Option PyVal → Option (List (String × PyVal))
    | Option.none => some []
    | some (.obj m) => some (m.filter (fun kv => !strStarts kv.1 "_"))
    | some _ => Option.none

/-- Monomorphic `mapM` over artifact descriptors. -/
def mapArtifactsO : List PyVal → Option (List ArtifactInfo)
  | [] => some []
  | v :: vs =>
    match artifactOf v, mapArtifactsO vs with
    | some r, some rs => some (r :: rs)
    | _, _ => Option.none

/-- `data.get("provenance", {})` followed by attribute access: must be a
dict (or absent). -/
def provDataOf : Option PyVal → Option (List (String × PyVal))
  | Option.none => some []
  | some (.obj o) => some o
  | some _ => Option.none

/-- `data.get("artifacts", [])` followed by iteration: must be a list (or
absent). -/
def artifactsRawOf : Option PyVal → Option (List PyVal)
  | Option.none => some []
  | some (.list vs) => some vs
  | some _ => Option.none

/-- The full converter's `error` handling: `data.get("error")` validated
as `dict | None`. -/
def errFieldOf : PyVal → Option (Option (List (String × PyVal)))
  | .obj kvs => some (some kvs)
  | .none => some Option.none
  | _ => Option.none

/-- Identifier stage of the full converter: `data.get(...)` with string
defaults (pg_store.py lines 680-685). -/
def fullIdsOf (data : List (String × PyVal)) (run_id0 : String) :
    Option (String × String × String × String × String) := do
  let run_id ← asStr (objGetD data "run_id" (.s run_id0))
  let experiment_id ← asStr (objGetD data "experiment_id" (.s ""))
  let context_fp ← asStr (objGetD data "context_fingerprint" (.s ""))
  let params_fp ← asStr (objGetD data "params_fingerprint" (.s ""))
  let seed_fp ← asStr (objGetD data "seed_fingerprint" (.s ""))
  pure (run_id, experiment_id, context_fp, params_fp, seed_fp)

/-- Payload stage of the full converter: error/tags/warnings/notes/params/
metrics out of the record dict (pg_store.py lines 690-699). -/
def fullJsonOf (data : List (String × PyVal)) :
    Option (Option (List (String × PyVal)) × List String ×
            List (List (String × PyVal)) × Option String ×
            List (String × PyVal) × List (String × PyVal)) := do
  let error ← errFieldOf (objGet data "error")
  let tags0 ← ensureList (objGetD data "tags" (.list []))
  let tags ← mapStrsO tags0
  let warnings0 ← ensureList (objGetD data "warnings" (.list []))
  let warnings ← mapObjsO warnings0
  let notes ← asOptStr (objGet data "notes")
  let params ← ensureDict (objGetD data "params_resolved" (.obj []))
  let metrics ← ensureDict (objGetD data "metrics" (.obj []))
  pure (error, tags, warnings, notes, params, metrics)

/-- `_row_to_run_response`: convert a `(run_id, record_json)` row plus an
optional derived-metrics dict to a `RunResponse` (the full-payload path
used by `get_run`).  `record_json` must be a dict (a textual cell would go
through `json.loads`, not modelled). -/
def rowToRunResponse (run_id0 : String) (record_json : PyVal)
    (derived_json : Option (List (String × PyVal))) : Option RunResponse := do
  let data ← asObj record_json
  let provData ← provDataOf (objFind data "provenance")
  let provenance ← provOf provData
  let artifacts0 ← artifactsRawOf (objFind data "artifacts")
  let artifacts ← mapArtifactsO artifacts0
  let (status, startedAt, finishedAt, durationMs) ←
    scalarFieldsOf (objGetD data "status" (.s "success"))
      (objGet data "started_at") (objGet data "finished_at")
      (objGet data "duration_ms")
  let (run_id, experiment_id, context_fp, params_fp, seed_fp) ←
    fullIdsOf data run_id0
  let (error, tags, warnings, notes, params, metrics) ← fullJsonOf data
  pure (RunResponse.mk
    (RecordFields.mk run_id experiment_id status context_fp params_fp
      seed_fp startedAt finishedAt durationMs provenance error tags
      warnings notes)
    params metrics (derived_json.getD []) artifacts)  -- derived_json or {}

/-! ## Store state and the run query engine (pg_store.PostgresStoreAdapter) -/

/-- The adapter state a read needs: the discovered `experiment_id →
schema` map (the cache after `_refresh_schema_cache`, which the adapter
rebuilds on any miss, so reads always observe the discovered ground
truth), plus an oracle standing for SQL execution on the pooled
connection. -/
structure PgDB where
  expSchemas : List (String × String)
  queryRows : String → List PyVal → List (List PyVal)

/-- `_get_schema_for_experiment` after the rediscovery pass: a pure lookup
in the discovered map. -/
def lookupExp (db : PgDB) (experiment_id : String) : Option String :=
  (db.expSchemas.find? (fun p => p.1 == experiment_id)).map (·.2)

/-- `_get_all_schemas`: `list(set(values))`, modelled as first-occurrence
deduplication (Python set order is unspecified). -/
def allSchemas (db : PgDB) : List String :=
  (db.expSchemas.map (·.2)).dedup

/-- `_scope_for_experiment`: a single-schema scope for a resolvable
tenant, the empty scope for an unresolvable one, and the all-schema scope
when no (or a falsy) experiment id is given. -/
def scopeForExperiment (db : PgDB) (experiment_id : Option String) : SchemaScope :=
  match experiment_id with
  | some e =>
    if e = "" then ⟨allSchemas db⟩  -- falsy experiment_id
    else
      match lookupExp db e with
      | some schema => ⟨[schema]⟩
      | Option.none => ⟨[]⟩
  | Option.none => ⟨allSchemas db⟩

/-- `MAX_PAGE_SIZE`. -/
def maxPageSize : Int := 1000

/-- The field-filter loop of `query_runs`: compile each filter, skip empty
fragments, and re-alias `record.*` column clauses with the `r.` table
alias (pg_store.py lines 444-455). -/
def fieldFilterFold : List FieldFilter → List String × List PyVal →
    Option (List String × List PyVal)
  | [], acc => some acc
  | ff :: rest, acc =>
    match buildFieldFilter ff with
    | Option.none => Option.none
    | some (clause, fparams) =>
      if clause ≠ "" then
        let clause2 :=
          if strStarts ff.field "record." && !strStarts clause "(r." then
            "r." ++ clause
          else clause
        fieldFilterFold rest (acc.1 ++ [clause2], acc.2 ++ fparams)
      else
        fieldFilterFold rest acc

/-- The non-field WHERE clauses of `query_runs`, in source order:
experiment, status membership, start-time bounds (pg_store.py lines
425-441). -/
def baseWhere (f : FilterSpec) : List String × List PyVal :=
  let (w1, p1) : List String × List PyVal :=
    match f.experiment_id with
    | some e => if e ≠ "" then (["r.experiment_id = %s"], [PyVal.s e]) else ([], [])
    | Option.none => ([], [])
  let (w2, p2) : List String × List PyVal :=
    match f.status with
    | some sts =>
      if sts.isEmpty then ([], [])  -- empty status list is falsy
      else (["r.status IN (" ++ placeholders sts.length ++ ")"],
            sts.map (fun s => PyVal.s s.value))
    | Option.none => ([], [])
  let (w3, p3) : List String × List PyVal :=
    match f.started_after with
    | some t => (["r.started_at >= %s"], [PyVal.dt t])
    | Option.none => ([], [])
  let (w4, p4) : List String × List PyVal :=
    match f.started_before with
    | some t => (["r.started_at <= %s"], [PyVal.dt t])
    | Option.none => ([], [])
  (w1 ++ w2 ++ w3 ++ w4, p1 ++ p2 ++ p3 ++ p4)

/-- WHERE-clause assembly of `query_runs` for an optional filter. -/
def buildWhereParams (filter : Option FilterSpec) :
    Option (List String × List PyVal) :=
  match filter with
  | Option.none => some ([], [])
  | some f => fieldFilterFold (f.field_filters.getD []) (baseWhere f)

/-- Sort-column resolution of `query_runs` (pg_store.py lines 471-480):
`record.*` sorts on the bare column, `params.*` on a text JSON path,
`metrics.*` on a float-cast JSON path, anything else (including a falsy
`sort_by`) on `started_at`. -/
def sortColOf (sortBy : Option String) : String :=
  match sortBy with
  | some sb =>
    if sb = "" then "started_at"
    else
      match splitFirstDot sb with
      | some ("record", key) => key
      | some ("params", key) =>
        "(record_json->" ++ sq ++ "params_resolved" ++ sq ++ "->>" ++ sq ++ key ++ sq ++ ")"
      | some ("metrics", key) =>
        "(record_json->" ++ sq ++ "metrics" ++ sq ++ "->>" ++ sq ++ key ++ sq ++ ")::float"
      | _ => "started_at"
  | Option.none => "started_at"

/-- `cur.fetchone()[0]` on a COUNT result: the first cell of the first
row, which must be an integer. -/
def fetchCount : List (List PyVal) → Option Int
  | (PyVal.i n :: _) :: _ => some n
  | _ => Option.none

/-- Monomorphic `mapM` of the slim row converter over fetched rows. -/
def mapSlimO : List (List PyVal) → Option (List RunResponse)
  | [] => some []
  | row :: rows =>
    match slimRowToRunResponse row, mapSlimO rows with
    | some r, some rs => some (r :: rs)
    | _, _ => Option.none

/-- The column projection of the list query (pg_store.py lines 490-503,
whitespace normalised). -/
def slimSelect : String :=
  "SELECT r.run_id, r.experiment_id, r.status, r.started_at, " ++
  "r.finished_at, r.duration_ms, r.context_fingerprint, " ++
  "r.params_fingerprint, r.seed_fingerprint, " ++
  "r.record_json->" ++ sq ++ "params_resolved" ++ sq ++ " AS params, " ++
  "r.record_json->" ++ sq ++ "metrics" ++ sq ++ " AS metrics, " ++
  "r.record_json->" ++ sq ++ "tags" ++ sq ++ " AS tags, " ++
  "r.record_json->" ++ sq ++ "error" ++ sq ++ " AS error, " ++
  "r.record_json->" ++ sq ++ "provenance" ++ sq ++ " AS provenance, " ++
  "r.record_json->" ++ sq ++ "warnings" ++ sq ++ " AS warnings, " ++
  "r.record_json->" ++ sq ++ "notes" ++ sq ++ " AS notes, " ++
  "d.derived_json"

/-- `query_runs`: filtering, sorting and offset pagination over the
scoped runs table, with a separate COUNT query.  The result pairs the
`(page, total)` return value with the list of SQL statements executed;
`Option.none` models a raised exception.  An empty scope short-circuits
to `([], 0)` with no SQL executed. -/
def queryRuns (db : PgDB) (filter : Option FilterSpec := Option.none)
    (sortBy : Option String := Option.none) (sortOrder : String := "desc")
    (limit0 : Int := 100) (offset : Int := 0) :
    Option ((List RunResponse × Int) × List String) :=
  let limit := min limit0 maxPageSize
  let scope := scopeForExperiment db (filter.bind (·.experiment_id))
  if scope.isEmpty then
    some (([], 0), [])
  else do
    let (whereClauses, params) ← buildWhereParams filter
    let whereSql := if whereClauses.isEmpty then "1=1" else joinSep " AND " whereClauses
    let runsTable ← scope.table "runs" (some "r")
    let countSql := "SELECT COUNT(*) FROM " ++ runsTable ++ " WHERE " ++ whereSql
    let total ← fetchCount (db.queryRows countSql params)
    let sortDir := if sortOrder = "desc" then "DESC" else "ASC"
    let derivedTable ← scope.table "derived" (some "d")
    let querySql :=
      slimSelect ++ " FROM " ++ runsTable ++ " LEFT JOIN " ++ derivedTable ++
      " ON r.run_id = d.run_id WHERE " ++ whereSql ++ " ORDER BY " ++
      sortColOf sortBy ++ " " ++ sortDir ++ ", r.run_id " ++ sortDir ++
      " LIMIT %s OFFSET %s"
    let rows := db.queryRows querySql (params ++ [.i limit, .i offset])
    let runs ← mapSlimO rows
    pure ((runs, total), [countSql, querySql])

/-! ## Aggregation engine (backend/atlas/aggregate.py) -/

/-- `AggFn` enum (backend variant). -/
inductive AggFn where
  | mean
  | median
  | min
  | max
  | count
  | sum
deriving Repr, DecidableEq

/-- `ErrorBarType` enum. -/
inductive ErrorBarType where
  | none
  | std
  | sem
  | ci95
deriving Repr, DecidableEq

/-- `AggregateRequest` (backend variant, with its defaults). -/
structure AggregateRequest where
  filter : Option FilterSpec := Option.none
  x_field : String
  y_field : String
  group_by : Option (List String) := Option.none
  replicate_field : String := "record.seed_fingerprint"
  reduce_replicates : Bool := true
  agg_fn : AggFn := .mean
  error_bars : ErrorBarType := .std
deriving Repr

/-- `DataPoint` (backend variant).  The source also passes quartile
keyword arguments; the backend `DataPoint` model has no such fields and
pydantic drops unknown keywords, so they are not represented. -/
structure DataPoint where
  x : PyVal
  y : Rat
  y_low : Option Real := Option.none
  y_high : Option Real := Option.none
  n : Nat
  run_ids : Option (List String) := Option.none

/-- `Series`. -/
structure Series where
  name : String
  points : List DataPoint

/-- `AggregateResponse` (backend variant). -/
structure AggregateResponse where
  series : List Series
  x_field : String
  y_field : String
  agg_fn : AggFn
  total_runs : Nat

/-- `getattr(run.record, key, None)`: the record attributes the engine
reads, observed as Python values (string enums by their value, datetimes
as ISO strings).  Attributes of unmodelled types (provenance, error,
warnings) are treated as absent. -/
def recordAttr (rec : RecordFields) (key : String) : PyVal :=
  match key with
  | "run_id" => .s rec.run_id
  | "experiment_id" => .s rec.experiment_id
  | "status" => .s rec.status.value
  | "context_fingerprint" => .s rec.context_fingerprint
  | "params_fingerprint" => .s rec.params_fingerprint
  | "seed_fingerprint" => .s rec.seed_fingerprint
  | "started_at" =>
    match rec.started_at with
    | .iso t => .dt t
    | .epoch => .dt "1970-01-01T00:00:00+00:00"
  | "finished_at" =>
    match rec.finished_at with
    | some (.iso t) => .dt t
    | some .epoch => .dt "1970-01-01T00:00:00+00:00"
    | Option.none => .none
  | "duration_ms" =>
    match rec.duration_ms with
    | some d => .i d
    | Option.none => .none
  | "tags" => .list (rec.tags.map .s)
  | "notes" =>
    match rec.notes with
    | some t => .s t
    | Option.none => .none
  | _ => .none

/-- `get_field_value(run, field_path)`: resolve a dot-path against the
run's namespaces; a path without a dot or with an unknown namespace reads
as `None`. -/
def getFieldValue (run : RunResponse) (fieldPath : String) : PyVal :=
  match splitFirstDot fieldPath with
  | Option.none => .none
  | some (ns, key) =>
    if ns = "record" then recordAttr run.record key
    else if ns = "params" then objGet run.params key
    else if ns = "metrics" then objGet run.metrics key
    else if ns = "derived" then objGet run.derived_metrics key
    else .none

/-- The validity test of `compute_aggregate`: both fields present and the
Y value convertible to float. -/
def isValidRun (xf yf : String) (run : RunResponse) : Bool :=
  let x := getFieldValue run xf
  let y := getFieldValue run yf
  !x.isNone && !y.isNone && (pyFloat y).isSome

/-- The `valid_runs` list of `compute_aggregate`. -/
def validRuns (runs : List RunResponse) (xf yf : String) : List RunResponse :=
  runs.filter (isValidRun xf yf)

/-- One grouping part: `str(val) if val is not None else ""`. -/
def fieldKeyStr (run : RunResponse) (field : String) : String :=
  match getFieldValue run field with
  | PyVal.none => ""
  | v => pyStr v

/-- `_make_group_key`: the bare part for a single grouping field, the
`" | "`-joined parts for several.  (Python would raise an `IndexError` on
an empty list; callers never pass one — modelled as `""`.) -/
def makeGroupKey (run : RunResponse) (group_by : List String) : String :=
  let parts := group_by.map (fieldKeyStr run)
  match parts with
  | [] => ""
  | [p] => p
  | ps => joinSep " | " ps

/-- The group key chosen in `compute_aggregate`: a truthy `group_by`
selects `_make_group_key`, otherwise the single group `"all"`. -/
def groupKeyOf (req : AggregateRequest) (run : RunResponse) : String :=
  match req.group_by with
  | some (g :: gs) => makeGroupKey run (g :: gs)
  | _ => "all"

/-- Insertion into the `groups` dict (insertion-ordered, values
appended). -/
def addToGroup (gs : List (String × List RunResponse)) (k : String)
    (run : RunResponse) : List (String × List RunResponse) :=
  match gs with
  | [] => [(k, [run])]
  | (k0, rs) :: rest =>
    if k0 == k then (k0, rs ++ [run]) :: rest
    else (k0, rs) :: addToGroup rest k run

/-- The `groups` dict of `compute_aggregate`. -/
def groupsOf (runs : List RunResponse) (req : AggregateRequest) :
    List (String × List RunResponse) :=
  (validRuns runs req.x_field req.y_field).foldl
    (fun gs run => addToGroup gs (groupKeyOf req run) run) []

/-- Stable sorted insertion on string keys (model of
`sorted(groups.items())`; dict keys are unique, so stability is moot). -/
def insertByKey {α : Type} (x : String × α) : List (String × α) → List (String × α)
  | [] => [x]
  | y :: ys => if strLe x.1 y.1 then x :: y :: ys else y :: insertByKey x ys

/-- `sorted(groups.items())`. -/
def sortByKeyStr {α : Type} (l : List (String × α)) : List (String × α) :=
  l.foldr insertByKey []

/-- Insertion into the `x_to_ys` dict (Python `==` on keys). -/
def addXY (l : List (PyVal × List (Rat × String))) (x : PyVal)
    (yr : Rat × String) : List (PyVal × List (Rat × String)) :=
  match l with
  | [] => [(x, [yr])]
  | (k, ys) :: rest =>
    if pyEq k x then (k, ys ++ [yr]) :: rest
    else (k, ys) :: addXY rest x yr

/-- The `x_to_ys` dict of `_aggregate_group`: Y values (with run ids)
collected per X value. -/
def xToYs (runs : List RunResponse) (xf yf : String) :
    List (PyVal × List (Rat × String)) :=
  runs.foldl
    (fun acc run =>
      let x := getFieldValue run xf
      let y := getFieldValue run yf
      if !x.isNone && !y.isNone then
        match pyFloat y with
        | some q => addXY acc x (q, run.record.run_id)
        | Option.none => acc
      else acc)
    []

/-- `_sort_key`: numbers (bools included) before everything else. -/
def pySortRank : PyVal → Nat
  | .i _ => 0
  | .f _ => 0
  | .b _ => 0
  | _ => 1

/-- Numeric component of `_sort_key`. -/
def pySortNum : PyVal → Rat
  | .i n => (n : Rat)
  | .f q => q
  | .b v => if v then 1 else 0
  | _ => 0

/-- The tuple order induced by `_sort_key`. -/
def xLe (a c : PyVal) : Bool :=
  if pySortRank a < pySortRank c then true
  else if pySortRank c < pySortRank a then false
  else if pySortRank a == 0 then decide (pySortNum a ≤ pySortNum c)
  else strLe (pyStr a) (pyStr c)

/-- Sorted insertion for X keys. -/
def insertByX {α : Type} (x : PyVal × α) : List (PyVal × α) → List (PyVal × α)
  | [] => [x]
  | y :: ys => if xLe x.1 y.1 then x :: y :: ys else y :: insertByX x ys

/-- `sorted(x_to_ys.items(), key=...)` (keys are distinct under `==`). -/
def sortByX {α : Type} (l : List (PyVal × α)) : List (PyVal × α) :=
  l.foldr insertByX []

/-- Sorted insertion of a rational. -/
def insertRat (x : Rat) : List Rat → List Rat
  | [] => [x]
  | y :: ys => if x ≤ y then x :: y :: ys else y :: insertRat x ys

/-- `sorted(values)`. -/
def sortRats (l : List Rat) : List Rat :=
  l.foldr insertRat []

/-- The median branch of `_compute_agg`. -/
def medianOf (values : List Rat) : Rat :=
  let s := sortRats values
  let n := s.length
  if n % 2 == 1 then s.getD (n / 2) 0
  else (s.getD (n / 2 - 1) 0 + s.getD (n / 2) 0) / 2

/-- `_compute_agg`: the aggregation functions (empty input yields 0,
as in the source). -/
def computeAgg (values : List Rat) (agg_fn : AggFn) : Rat :=
  match values with
  | [] => 0
  | v :: vs =>
    match agg_fn with
    | .mean => (v :: vs).sum / ((v :: vs).length : Rat)
    | .median => medianOf (v :: vs)
    | .min => vs.foldl Min.min v
    | .max => vs.foldl Max.max v
    | .count => ((v :: vs).length : Rat)
    | .sum => (v :: vs).sum

/-- The 95% CI t-table of `_t_value_95`, in ascending df order. -/
def tTablePairs : List (Nat × Rat) :=
  [(1, 12.71), (2, 4.30), (3, 3.18), (4, 2.78), (5, 2.57), (6, 2.45),
   (7, 2.36), (8, 2.31), (9, 2.26), (10, 2.23), (15, 2.13), (20, 2.09),
   (25, 2.06), (30, 2.04)]

/-- Exact-key lookup in the t-table (`df in t_table`). -/
def tTableLookup (df : Nat) : Option Rat :=
  (tTablePairs.find? (fun p => p.1 == df)).map (·.2)

/-- `_t_value_95(df)`: the table entry when present; 1.96 above df 30;
otherwise the first table key not below `df` (the Python loop over
`sorted(t_table.keys())`); 1.96 as the final fallback. -/
def tValue95 (df : Nat) : Rat :=
  match tTableLookup df with
  | some t => t
  | Option.none =>
    if df > 30 then 1.96
    else
      match tTablePairs.find? (fun p => df ≤ p.1) with
      | some p => p.2
      | Option.none => 1.96

/-- `_compute_error_bounds`: `None` bounds for `error_bars=none` or fewer
than two samples; otherwise center ± std, ± std/√n, or ± t·std/√n with the
t-value chosen by the large-sample cutoff at n = 30. -/
noncomputable def computeErrorBounds (values : List Rat) (center : Rat)
    (error_bars : ErrorBarType) : Option Real × Option Real :=
  if error_bars = .none ∨ values.length < 2 then (Option.none, Option.none)
  else
    let n := values.length
    let mean : Rat := values.sum / (n : Rat)
    let variance : Rat := (values.map (fun x => (x - mean) ^ 2)).sum / ((n : Rat) - 1)
    let std : Real := if variance > 0 then Real.sqrt (variance : Real) else 0
    match error_bars with
    | .std => (some ((center : Real) - std), some ((center : Real) + std))
    | .sem =>
      let sem := std / Real.sqrt (n : Real)
      (some ((center : Real) - sem), some ((center : Real) + sem))
    | .ci95 =>
      let t : Rat := if n > 30 then 1.96 else tValue95 (n - 1)
      let margin := (t : Real) * std / Real.sqrt (n : Real)
      (some ((center : Real) - margin), some ((center : Real) + margin))
    | .none => (Option.none, Option.none)

/-- The reduced data point of `_aggregate_group` (the
`reduce_replicates and len(y_values) > 1` branch). -/
noncomputable def mkReducedPoint (x : PyVal) (yrs : List (Rat × String))
    (agg_fn : AggFn) (error_bars : ErrorBarType) : DataPoint :=
  let yValues := yrs.map (·.1)
  let runIds := yrs.map (·.2)
  let yAgg := computeAgg yValues agg_fn
  let bounds := computeErrorBounds yValues yAgg error_bars
  ⟨x, yAgg, bounds.1, bounds.2, yValues.length, some runIds⟩

/-- `_aggregate_group`: per-X data points in `_sort_key` order, either
reduced over replicates or emitted individually.  (`replicate_field` is
accepted and unused, exactly as in the source.) -/
noncomputable def aggregateGroup (runs : List RunResponse) (xf yf : String)
    (replicate_field : String) (reduce_replicates : Bool) (agg_fn : AggFn)
    (error_bars : ErrorBarType) : List DataPoint :=
  let _ := replicate_field
  let pairs := sortByX (xToYs runs xf yf)
  pairs.flatMap (fun p =>
    if reduce_replicates && decide (p.2.length > 1) then
      [mkReducedPoint p.1 p.2 agg_fn error_bars]
    else
      p.2.map (fun yr =>
        DataPoint.mk p.1 yr.1 Option.none Option.none 1 (some [yr.2])))

/-- `compute_aggregate`: filter to valid runs, group, aggregate each
group in sorted order, and keep only groups yielding points. -/
noncomputable def computeAggregate (runs : List RunResponse)
    (req : AggregateRequest) : AggregateResponse :=
  let valid := validRuns runs req.x_field req.y_field
  if valid.isEmpty then
    ⟨[], req.x_field, req.y_field, req.agg_fn, 0⟩
  else
    let seriesList :=
      (sortByKeyStr (groupsOf runs req)).flatMap (fun g =>
        let points := aggregateGroup g.2 req.x_field req.y_field
          req.replicate_field req.reduce_replicates req.agg_fn req.error_bars
        if points.isEmpty then [] else [Series.mk g.1 points])
    ⟨seriesList, req.x_field, req.y_field, req.agg_fn, valid.length⟩

/-! ## Histogram engine (atlas/routers/histogram.py, in-memory fallback)

The router first defers to a store-provided `compute_histogram_sql`; no
store under src/ provides one, so the numpy fallback below is the
executed path.  `np.histogram` and `np.digitize` are modelled in exact
rational arithmetic. -/

/-- Modelled from the spec: the `HistogramRequest` wire model
(`{field, bin_count, filter?}`) is not among the model declarations under
src/; only its three fields, all read by the router, are represented. -/
structure HistogramRequest where
  field : String
  bin_count : Nat
  filter : Option FilterSpec := Option.none
deriving Repr

/-- Modelled from the spec: the `HistogramResponse` wire model
(`{field, bins[], counts[], total, run_ids_per_bin[][]}`). -/
structure HistogramResponse where
  field : String
  bins : List Rat
  counts : List Nat
  total : Nat
  run_ids_per_bin : List (List String)
deriving Repr, DecidableEq

/-- The value-extraction loop of the histogram endpoint: field values that
are present and float-convertible, paired with their run ids, in run
order. -/
def histValues (runs : List RunResponse) (field : String) :
    List (Rat × String) :=
  runs.foldl
    (fun acc run =>
      match getFieldValue run field with
      | PyVal.none => acc
      | v =>
        match pyFloat v with
        | some q => acc ++ [(q, run.record.run_id)]
        | Option.none => acc)
    []

/-- The histogram range `np.histogram` chooses: the data min/max, pulled
apart by ±0.5 when they coincide (numpy `_get_outer_edges`); `(0, 1)` for
no data. -/
def histRange (values : List Rat) : Rat × Rat :=
  match values.min?, values.max? with
  | some a, some b => if a == b then (a - 1/2, b + 1/2) else (a, b)
  | _, _ => (0, 1)

/-- The `bin_count + 1` equally spaced edges of `np.histogram`. -/
def histEdges (first last : Rat) (n : Nat) : List Rat :=
  (List.range (n + 1)).map (fun (i : Nat) => first + (i : Rat) * (last - first) / (n : Rat))

/-- The bin index `np.histogram` assigns a value in `[first, last]`:
`⌊(v - first)·n/(last - first)⌋` clamped so the last bin is closed. -/
def binIdx (first last : Rat) (n : Nat) (v : Rat) : Nat :=
  (min (Int.floor ((v - first) * (n : Rat) / (last - first))) ((n : Int) - 1)).toNat

/-- `np.histogram(values, bins=n)` in exact arithmetic: the edges and the
per-bin counts. -/
def npHistogram (values : List Rat) (n : Nat) : List Rat × List Nat :=
  let r := histRange values
  (histEdges r.1 r.2 n,
   (List.range n).map (fun j => values.countP (fun v => binIdx r.1 r.2 n v == j)))

/-- `np.digitize(v, edges)` for ascending edges (`right=False`): the
number of edges not exceeding `v`. -/
def digitizeCount (edges : List Rat) (v : Rat) : Nat :=
  edges.countP (fun e => decide (e ≤ v))

/-- The endpoint's run-id bin assignment: digitize against
`bin_edges[:-1]`, convert to 0-based, clamp into `[0, n-1]`. -/
def assignBin (nbins : Nat) (edges : List Rat) (v : Rat) : Nat :=
  (max 0 (min ((digitizeCount edges v : Int) - 1) ((nbins : Int) - 1))).toNat

/-- Append a run id to the bin at the given index. -/
def appendAt : List (List String) → Nat → String → List (List String)
  | [], _, _ => []
  | l :: ls, 0, r => (l ++ [r]) :: ls
  | l :: ls, j + 1, r => l :: appendAt ls j r

/-- The `run_ids_per_bin` grouping loop of the endpoint. -/
def runIdsPerBin (pairs : List (Rat × String)) (edges : List Rat)
    (nbins : Nat) : List (List String) :=
  pairs.foldl (fun acc p => appendAt acc (assignBin nbins edges p.1) p.2)
    (List.replicate nbins [])

/-- The in-memory `histogram` endpoint: the degenerate `[0, 1]` response
when nothing matches, otherwise numpy binning plus per-bin run ids.
(The runs argument stands for the `query_runs` result the endpoint
fetches.) -/
def histogramEndpoint (runs : List RunResponse) (req : HistogramRequest) :
    HistogramResponse :=
  let pairs := histValues runs req.field
  let values := pairs.map (·.1)
  if values.isEmpty then
    ⟨req.field, [0, 1], [0], 0, [[]]⟩
  else
    let ec := npHistogram values req.bin_count
    ⟨req.field, ec.1, ec.2, values.length,
     runIdsPerBin pairs ec.1.dropLast ec.2.length⟩

/-! ## Search dispatcher (pg_store.search and the per-category queries) -/

/-- `SearchHit`. -/
structure SearchHit where
  label : String
  sublabel : Option String := Option.none
  entity_type : String
  entity_id : String
  field : Option String := Option.none
  value : Option String := Option.none
deriving Repr, DecidableEq

/-- `SearchGroup`. -/
structure SearchGroup where
  category : String
  label : String
  scope : String
  hits : List SearchHit
  total : Int
deriving Repr, DecidableEq

/-- `list_experiments` (pg_store.py lines 1141-1181, TTL cache elided:
the model always recomputes, which is what a cache miss does): the
grouped experiment listing, decoded as raw 3-cell rows. -/
def listExperiments (db : PgDB) : Option (List (PyVal × PyVal × PyVal)) :=
  let scope := SchemaScope.mk (allSchemas db)
  if scope.isEmpty then some []
  else
    match scope.table "runs" with
    | Option.none => Option.none
    | some runsTable =>
      decodeRows (db.queryRows
        ("SELECT experiment_id, COUNT(*) as run_count, " ++
         "MAX((record_json->>" ++ sq ++ "started_at" ++ sq ++
         ")::timestamp) as latest_run FROM " ++ runsTable ++
         " GROUP BY experiment_id ORDER BY latest_run DESC NULLS LAST") [])
where
  /-- Tuple-unpack each fetched row as `(row[0], row[1], row[2])`. -/
  decodeRows : List (List PyVal) → Option (List (PyVal × PyVal × PyVal))
    | [] => some []
    | row :: rest =>
      match row with
      | [a, b, c] =>
        match decodeRows rest with
        | some rs => some ((a, b, c) :: rs)
        | Option.none => Option.none
      | _ => Option.none

/-- The accumulation loop of `_search_experiments_native`: count every
substring match, keep the first `limit` as hits. -/
def expHitsFold (qLower : String) (limit : Int) :
    List (PyVal × PyVal × PyVal) → List SearchHit × Int →
    Option (List SearchHit × Int)
  | [], acc => some acc
  | (eidV, rcV, _) :: rest, acc =>
    match eidV with
    | .s eid =>
      if strContainsSub (strLower eid) qLower then
        let total := acc.2 + 1
        let hits :=
          if (acc.1.length : Int) < limit then
            acc.1 ++ [{ label := eid, sublabel := some (pyStr rcV ++ " runs"),
                        entity_type := "experiment", entity_id := eid }]
          else acc.1
        expHitsFold qLower limit rest (hits, total)
      else expHitsFold qLower limit rest acc
    | _ => Option.none  -- `exp_id.lower()` on a non-string raises

/-- `_search_experiments_native`: substring match over the cached
experiment list, in Python. -/
def searchExperimentsNative (db : PgDB) (q : String) (limit : Int) :
    Option SearchGroup := do
  let exps ← listExperiments db
  let ht ← expHitsFold (strLower q) limit exps ([], 0)
  pure { category := "experiments", label := "Experiments",
         scope := "experiment", hits := ht.1, total := ht.2 }

/-- Decode `(namespace, field_name, count)` rows into field-name hits. -/
def fieldHitRows : List (List PyVal) → Option (List SearchHit)
  | [] => some []
  | row :: rest =>
    match row with
    | [nsV, fnV, cV] =>
      match asStr fnV, fieldHitRows rest with
      | some fn, some hs =>
        some ({ label := fn,
                sublabel := some (pyStr nsV ++ " · " ++ pyStr cV ++ " runs"),
                entity_type := "experiment", entity_id := "",
                field := some (pyStr nsV ++ "." ++ fn) } :: hs)
      | _, _ => Option.none
    | _ => Option.none

/-- `_search_field_catalog_native`: one ILIKE query over the catalog plus
an exact COUNT. -/
def searchFieldCatalogNative (db : PgDB) (q : String) (limit : Int) :
    Option SearchGroup :=
  let scope := SchemaScope.mk (allSchemas db)
  if scope.isEmpty then
    some { category := "field_names", label := "Field names",
           scope := "experiment", hits := [], total := 0 }
  else do
    let fcTable ← scope.table "field_catalog"
    let pattern := "%" ++ q ++ "%"
    let rows := db.queryRows
      ("SELECT namespace, field_name, count FROM " ++ fcTable ++
       " WHERE field_name ILIKE %s ORDER BY count DESC LIMIT %s")
      [.s pattern, .i limit]
    let total ← fetchCount (db.queryRows
      ("SELECT COUNT(*) FROM " ++ fcTable ++ " WHERE field_name ILIKE %s")
      [.s pattern])
    let hits ← fieldHitRows rows
    pure { category := "field_names", label := "Field names",
           scope := "experiment", hits := hits, total := total }

/-- Decode `(run_id, experiment_id)` rows into run hits. -/
def runHitRows : List (List PyVal) → Option (List SearchHit)
  | [] => some []
  | row :: rest =>
    match row with
    | [ridV, eidV] =>
      match asStr ridV, asOptStr eidV, runHitRows rest with
      | some rid, some eid, some hs =>
        some ({ label := rid, sublabel := eid, entity_type := "run",
                entity_id := rid } :: hs)
      | _, _, _ => Option.none
    | _ => Option.none

/-- `_search_run_ids_native`: exact COUNT plus a limited ILIKE fetch. -/
def searchRunIdsNative (db : PgDB) (q : String) (limit : Int) :
    Option SearchGroup :=
  let scope := SchemaScope.mk (allSchemas db)
  if scope.isEmpty then
    some { category := "runs", label := "Runs", scope := "run",
           hits := [], total := 0 }
  else do
    let runsTable ← scope.table "runs"
    let pattern := "%" ++ q ++ "%"
    let total ← fetchCount (db.queryRows
      ("SELECT COUNT(*) FROM " ++ runsTable ++ " WHERE run_id ILIKE %s")
      [.s pattern])
    let rows := db.queryRows
      ("SELECT run_id, experiment_id FROM " ++ runsTable ++
       " WHERE run_id ILIKE %s ORDER BY started_at DESC LIMIT %s")
      [.s pattern, .i limit]
    let hits ← runHitRows rows
    pure { category := "runs", label := "Runs", scope := "run",
           hits := hits, total := total }

/-- `_search_fingerprints_native`: one query OR-ing the three fingerprint
columns; the total is the approximate `len(hits) + 1` when the limit was
reached. -/
def searchFingerprintsNative (db : PgDB) (q : String) (limit : Int) :
    Option SearchGroup :=
  let scope := SchemaScope.mk (allSchemas db)
  if scope.isEmpty then
    some { category := "fingerprints", label := "Fingerprints",
           scope := "run", hits := [], total := 0 }
  else do
    let runsTable ← scope.table "runs"
    let pattern := "%" ++ q ++ "%"
    let rows := db.queryRows
      ("SELECT run_id, experiment_id FROM " ++ runsTable ++
       " WHERE seed_fingerprint ILIKE %s OR params_fingerprint ILIKE %s" ++
       " OR context_fingerprint ILIKE %s ORDER BY started_at DESC LIMIT %s")
      [.s pattern, .s pattern, .s pattern, .i limit]
    let hits ← runHitRows rows
    let total : Int :=
      if (hits.length : Int) ≥ limit then hits.length + 1 else hits.length
    pure { category := "fingerprints", label := "Fingerprints",
           scope := "run", hits := hits, total := total }

/-- Decode `(experiment_id, tag)` rows into experiment-tag hits. -/
def tagHitRows : List (List PyVal) → Option (List SearchHit)
  | [] => some []
  | row :: rest =>
    match row with
    | [eidV, tagV] =>
      match asStr eidV, tagHitRows rest with
      | some eid, some hs =>
        some ({ label := eid, sublabel := some ("tag: " ++ pyStr tagV),
                entity_type := "experiment", entity_id := eid } :: hs)
      | _, _ => Option.none
    | _ => Option.none

/-- `_search_experiment_tags_native`: LATERAL unnest of manifest tags;
approximate total like the fingerprint search. -/
def searchExperimentTagsNative (db : PgDB) (q : String) (limit : Int) :
    Option SearchGroup :=
  let scope := SchemaScope.mk (allSchemas db)
  if scope.isEmpty then
    some { category := "tags", label := "Tags", scope := "experiment",
           hits := [], total := 0 }
  else do
    let manifestsTable ← scope.table "experiment_manifests"
    let pattern := "%" ++ q ++ "%"
    let rows := db.queryRows
      ("SELECT DISTINCT ON (m.experiment_id) m.experiment_id, t.tag FROM " ++
       manifestsTable ++ " m, LATERAL jsonb_array_elements_text(COALESCE(" ++
       "m.manifest_json->" ++ sq ++ "tags" ++ sq ++ ", " ++ sq ++ "[]" ++ sq ++
       "::jsonb)) AS t(tag) WHERE t.tag ILIKE %s ORDER BY m.experiment_id LIMIT %s")
      [.s pattern, .i limit]
    let hits ← tagHitRows rows
    let total : Int :=
      if (hits.length : Int) ≥ limit then hits.length + 1 else hits.length
    pure { category := "tags", label := "Tags", scope := "experiment",
           hits := hits, total := total }

/-- `_search_run_tags_native`: LATERAL unnest of run tags, with an exact
distinct COUNT. -/
def searchRunTagsNative (db : PgDB) (q : String) (limit : Int) :
    Option SearchGroup :=
  let scope := SchemaScope.mk (allSchemas db)
  if scope.isEmpty then
    some { category := "run_tags", label := "Run tags", scope := "run",
           hits := [], total := 0 }
  else do
    let runsTable ← scope.table "runs"
    let pattern := "%" ++ q ++ "%"
    let rows := db.queryRows
      ("SELECT r.run_id, r.experiment_id FROM " ++ runsTable ++
       " r, LATERAL jsonb_array_elements_text(COALESCE(" ++
       "r.record_json->" ++ sq ++ "tags" ++ sq ++ ", " ++ sq ++ "[]" ++ sq ++
       "::jsonb)) AS t(tag) WHERE t.tag ILIKE %s ORDER BY r.started_at DESC LIMIT %s")
      [.s pattern, .i limit]
    let total ← fetchCount (db.queryRows
      ("SELECT COUNT(DISTINCT r.run_id) FROM " ++ runsTable ++
       " r, LATERAL jsonb_array_elements_text(COALESCE(" ++
       "r.record_json->" ++ sq ++ "tags" ++ sq ++ ", " ++ sq ++ "[]" ++ sq ++
       "::jsonb)) AS t(tag) WHERE t.tag ILIKE %s")
      [.s pattern])
    let hits ← runHitRows rows
    pure { category := "run_tags", label := "Run tags", scope := "run",
           hits := hits, total := total }

/-- `search(q, limit)`: the six category searches in source order,
keeping only groups with hits or a positive total. -/
def search (db : PgDB) (q : String) (limit : Int := 5) :
    Option (List SearchGroup) := do
  let g1 ← searchExperimentsNative db q limit
  let g2 ← searchFieldCatalogNative db q limit
  let g3 ← searchRunIdsNative db q limit
  let g4 ← searchFingerprintsNative db q limit
  let g5 ← searchExperimentTagsNative db q limit
  let g6 ← searchRunTagsNative db q limit
  pure (([g1, g2, g3, g4, g5, g6]).filter
    (fun g => !g.hits.isEmpty || decide (g.total > 0)))

/-! ## Named spec-side definitions used by the claim statements -/

/-- The sample standard deviation computed inside `_compute_error_bounds`:
square root of the (n-1)-denominator variance, 0 for zero variance. -/
noncomputable def sampleStd (values : List Rat) : Real :=
  let n := values.length
  let mean : Rat := values.sum / (n : Rat)
  let variance : Rat := (values.map (fun x => (x - mean) ^ 2)).sum / ((n : Rat) - 1)
  if variance > 0 then Real.sqrt (variance : Real) else 0

/-- The t-value chosen by `_compute_error_bounds` for `ci95`:
`1.96 if n > 30 else _t_value_95(n - 1)`. -/
def tChosen (n : Nat) : Rat :=
  if n > 30 then 1.96 else tValue95 (n - 1)

/-- The ci95 half-width `t(n) · std / √n`. -/
noncomputable def ci95Margin (values : List Rat) : Real :=
  (tChosen values.length : Real) * sampleStd values /
    Real.sqrt (values.length : Real)

/-! ## Concrete fixtures used by witnesses and counterexamples -/

/-- A successful run in namespace `expA` with one metric `score`. -/
def scenarioRun (rid : String) (score : Int) : RunResponse :=
  { record := { run_id := rid, experiment_id := "expA", status := .success,
                context_fingerprint := "", params_fingerprint := "",
                seed_fingerprint := "", started_at := .epoch,
                provenance := {} },
    metrics := [("score", .i score)] }

/-- The three-run scenario of the specification (`metrics.score` = 10, 20,
30, all with `status = success`). -/
def scenarioRuns : List RunResponse :=
  [scenarioRun "r1" 10, scenarioRun "r2" 20, scenarioRun "r3" 30]

/-- The scenario request: `x = record.status`, `y = metrics.score`, the
defaults elsewhere (`agg_fn = mean`, empty `group_by`). -/
def scenarioReq : AggregateRequest :=
  { x_field := "record.status", y_field := "metrics.score" }

/-- A database whose every COUNT answers 0 and every fetch is empty: no
entity matches any query. -/
def zeroDb : PgDB :=
  { expSchemas := [("e1", "s1")],
    queryRows := fun sql _ =>
      if strStarts sql "SELECT COUNT" then [[PyVal.i 0]] else [] }

/-- A database whose every COUNT answers 1 and every fetch is empty:
categories report totals without hit rows. -/
def oneDb : PgDB :=
  { expSchemas := [("e1", "s1")],
    queryRows := fun sql _ =>
      if strStarts sql "SELECT COUNT" then [[PyVal.i 1]] else [] }

/-- A slim row for a running run that nevertheless stores a finish
timestamp and a duration. -/
def slimRunningRow : List PyVal :=
  [.s "r1", .s "e1", .s "running", .dt "t0", .dt "t9", .i 5, .s "", .s "",
   .s "", .none, .none, .none, .none, .none, .none, .none, .none]

/-- The response the slim converter produces for `slimRunningRow`. -/
def slimRunningResp : RunResponse :=
  ⟨⟨"r1", "e1", .running, "", "", "", .iso "t0", Option.none, Option.none,
    ⟨Option.none, Option.none, Option.none, Option.none, Option.none, []⟩,
    Option.none, [], [], Option.none⟩, [], [], [], []⟩

/-- A full record payload for a running run that stores a finish timestamp
and a duration. -/
def fullRunningJson : PyVal :=
  .obj [("status", .s "running"), ("finished_at", .s "t9"),
        ("duration_ms", .i 7)]

/-- The response the full converter produces for `fullRunningJson`. -/
def fullRunningResp : RunResponse :=
  ⟨⟨"r1", "", .running, "", "", "", .epoch, Option.none, Option.none,
    ⟨Option.none, Option.none, Option.none, Option.none, Option.none, []⟩,
    Option.none, [], [], Option.none⟩, [], [], [], []⟩

/-! ## Helper lemmas -/

/-- Only the raw value `"running"` parses to `RunStatus.RUNNING`, so a
parsed running status implies the `is_running` flag was set. -/
theorem statusOfPy_running_isRunning (v : PyVal)
    (h : statusOfPy v = some Status.running) : isRunningVal v = true := by
  cases v with
  | s a =>
    simp only [statusOfPy] at h
    split at h <;> simp_all [isRunningVal]
  | none => simp [statusOfPy] at h
  | b x => simp [statusOfPy] at h
  | i x => simp [statusOfPy] at h
  | f x => simp [statusOfPy] at h
  | dt x => simp [statusOfPy] at h
  | list x => simp [statusOfPy] at h
  | obj x => simp [statusOfPy] at h

/-- The shared scalar stage yields `None` finish/duration whenever the
parsed status is running. -/
theorem scalarFields_running (s0 sa fa du : PyVal) (st : Status) (a : DateTimeV)
    (fin : Option DateTimeV) (dur : Option Int)
    (h : scalarFieldsOf s0 sa fa du = some (st, a, fin, dur))
    (hst : st = Status.running) :
    fin = Option.none ∧ dur = Option.none := by
  subst hst
  unfold scalarFieldsOf at h
  simp only [Option.bind_eq_bind, Option.bind_eq_some, Option.pure_def,
    Option.some.injEq] at h
  obtain ⟨sa2, hsa, st2, hst2, fin2, hfin, dur2, hdur, heq⟩ := h
  injection heq with h1 hrest
  injection hrest with h2 hrest2
  injection hrest2 with h3 h4
  subst h1
  have hrun := statusOfPy_running_isRunning s0 hst2
  rw [hrun] at hfin hdur
  simp only [if_true] at hfin hdur
  simp only [asOptDT, Option.some.injEq] at hfin
  simp only [asOptInt, Option.some.injEq] at hdur
  exact ⟨h3 ▸ hfin.symm, h4 ▸ hdur.symm⟩

/-- The clamped numpy bin index always lands in `[0, n)`. -/
theorem binIdx_lt (first last : Rat) (n : Nat) (v : Rat) (hn : 1 ≤ n) :
    binIdx first last n v < n := by
  unfold binIdx
  have h := min_le_right (Int.floor ((v - first) * (n : Rat) / (last - first)))
    ((n : Int) - 1)
  omega

/-- A mapped list sum over `List.range` is the corresponding finite sum. -/
theorem sum_map_range (f : Nat → Nat) (n : Nat) :
    ((List.range n).map f).sum = ∑ j ∈ Finset.range n, f j := by
  induction n with
  | zero => simp
  | succ m ih =>
    rw [List.range_succ, Finset.sum_range_succ, List.map_append, List.sum_append]
    simp [ih]

/-- Counting occurrences of each index value over the full index range
recovers the list length (finite-sum form). -/
theorem sum_countP_range_fin {α : Type} (f : α → Nat) :
    ∀ (l : List α) (n : Nat), (∀ x ∈ l, f x < n) →
      (∑ j ∈ Finset.range n, l.countP (fun x => f x == j)) = l.length := by
  intro l
  induction l with
  | nil => intro n h; simp
  | cons x l ih =>
    intro n h
    have hx : f x < n := h x (by simp)
    simp only [List.countP_cons]
    rw [Finset.sum_add_distrib, ih n (fun y hy => h y (by simp [hy]))]
    simp [beq_iff_eq, Finset.sum_ite_eq, Finset.mem_range, hx]

/-- Counting occurrences of each index value over the full index range
recovers the list length (mapped-list form). -/
theorem sum_countP_range {α : Type} (f : α → Nat) (l : List α) (n : Nat)
    (h : ∀ x ∈ l, f x < n) :
    ((List.range n).map (fun j => l.countP (fun x => f x == j))).sum = l.length := by
  rw [sum_map_range, sum_countP_range_fin f l n h]

/-- `histEdges` always produces `n + 1` edges. -/
theorem histEdges_length (first last : Rat) (n : Nat) :
    (histEdges first last n).length = n + 1 := by
  unfold histEdges
  rw [List.length_map, List.length_range]

/-- Folding `min` over a constant list is the identity on the seed. -/
theorem foldl_min_const (a : Rat) :
    ∀ xs : List Rat, (∀ x ∈ xs, x = a) → xs.foldl min a = a := by
  intro xs
  induction xs with
  | nil => intro _; rfl
  | cons y ys ih =>
    intro h
    have hy : y = a := h y (by simp)
    simp only [List.foldl_cons, hy, min_self]
    exact ih (fun x hx => h x (by simp [hx]))

/-- Folding `max` over a constant list is the identity on the seed. -/
theorem foldl_max_const (a : Rat) :
    ∀ xs : List Rat, (∀ x ∈ xs, x = a) → xs.foldl max a = a := by
  intro xs
  induction xs with
  | nil => intro _; rfl
  | cons y ys ih =>
    intro h
    have hy : y = a := h y (by simp)
    simp only [List.foldl_cons, hy, max_self]
    exact ih (fun x hx => h x (by simp [hx]))

/-- The minimum of a nonempty constant list. -/
theorem min?_const (a : Rat) (l : List Rat) (hne : l ≠ [])
    (h : ∀ x ∈ l, x = a) : l.min? = some a := by
  match l, hne with
  | x :: xs, _ =>
    have hx : x = a := h x (by simp)
    show some (xs.foldl min x) = some a
    rw [hx, foldl_min_const a xs (fun y hy => h y (by simp [hy]))]

/-- The maximum of a nonempty constant list. -/
theorem max?_const (a : Rat) (l : List Rat) (hne : l ≠ [])
    (h : ∀ x ∈ l, x = a) : l.max? = some a := by
  match l, hne with
  | x :: xs, _ =>
    have hx : x = a := h x (by simp)
    show some (xs.foldl max x) = some a
    rw [hx, foldl_max_const a xs (fun y hy => h y (by simp [hy]))]

/-- `countP` over a constant list is all-or-nothing. -/
theorem countP_const {α : Type} (p : α → Bool) (a : α) :
    ∀ l : List α, (∀ x ∈ l, x = a) →
      l.countP p = if p a then l.length else 0 := by
  intro l
  induction l with
  | nil => intro _; simp
  | cons x xs ih =>
    intro h
    have hx : x = a := h x (by simp)
    rw [List.countP_cons, ih (fun y hy => h y (by simp [hy])), hx]
    by_cases hp : p a <;> simp [hp]

/-- A one-hot range map with the hot index out of range filters to
nothing. -/
theorem oneHot_filter_none (js : Nat) (t : Nat) :
    ∀ n, n ≤ js →
      (((List.range n).map (fun j => if js == j then t else 0)).filter
        (fun c => c != 0)) = [] := by
  intro n
  induction n with
  | zero => intro _; rfl
  | succ m ih =>
    intro h
    rw [List.range_succ, List.map_append, List.filter_append, ih (by omega)]
    have hne : (js == m) = false := by simp; omega
    simp [hne]
    omega

/-- A one-hot range map with an in-range hot index filters to exactly the
hot value. -/
theorem oneHot_filter (js t : Nat) (ht : t ≠ 0) :
    ∀ n, js < n →
      (((List.range n).map (fun j => if js == j then t else 0)).filter
        (fun c => c != 0)) = [t] := by
  intro n
  induction n with
  | zero => intro h; omega
  | succ m ih =>
    intro h
    rw [List.range_succ, List.map_append, List.filter_append]
    by_cases hj : js < m
    · rw [ih hj]
      have hne : (js == m) = false := by simp; omega
      simp [hne]
      omega
    · have hjm : js = m := by omega
      rw [oneHot_filter_none js t m (by omega)]
      simp [hjm, ht]

/-- Folding the group-insertion step with a constant key extends the
single group. -/
theorem foldl_addToGroup_const (k : String) :
    ∀ (vs rs : List RunResponse),
      vs.foldl (fun gs run => addToGroup gs k run) [(k, rs)] = [(k, rs ++ vs)] := by
  intro vs
  induction vs with
  | nil => intro rs; simp
  | cons v vs ih =>
    intro rs
    have hstep : addToGroup [(k, rs)] k v = [(k, rs ++ [v])] := by
      simp [addToGroup]
    rw [List.foldl_cons, hstep, ih]
    simp

/-! ## Claim theorems -/

/-- Claim C1: for every field filter with `op = in` over an n-element
value list that the compiler accepts (namespace `record`, `params` or
`metrics` — physical column or JSON path alike), the compiled fragment
ends in an `IN (...)` clause holding exactly n `%s` placeholders and the
bound-parameter list has exactly n elements. -/
theorem C1_in_filter_placeholders (ff : FieldFilter) (ns key : String)
    (vs : List PyVal)
    (hsplit : splitFirstDot ff.field = some (ns, key))
    (hns : ns = "record" ∨ ns = "params" ∨ ns = "metrics")
    (hop : ff.op = .opIn)
    (hval : ff.value = .list vs) :
    ∃ pre ps,
      buildFieldFilter ff =
        some (pre ++ " IN (" ++ placeholders vs.length ++ ")", ps) ∧
      ps.length = vs.length := by
  unfold buildFieldFilter
  rw [hsplit, hval]
  rcases hns with h | h | h <;> subst h
  · by_cases hc : key ∈ recordTableColumns <;>
      simp [hop, pyIterList, hc] <;> exact ⟨_, _, ⟨rfl, rfl⟩, by simp⟩
  · simp [hop, pyIterList]
    exact ⟨_, _, ⟨rfl, rfl⟩, by simp⟩
  · simp [hop, pyIterList]
    exact ⟨_, _, ⟨rfl, rfl⟩, by simp⟩

/-- Witness for C1 at `metrics.score in [1, 2]`. -/
theorem C1_witness :
    ∃ pre ps,
      buildFieldFilter ⟨"metrics.score", .opIn, .list [.i 1, .i 2]⟩ =
        some (pre ++ " IN (" ++ placeholders 2 ++ ")", ps) ∧
      ps.length = 2 :=
  C1_in_filter_placeholders ⟨"metrics.score", .opIn, .list [.i 1, .i 2]⟩
    "metrics" "score" [.i 1, .i 2] (by with_unfolding_all decide)
    (Or.inr (Or.inr rfl)) rfl rfl

/-- Claim C2: when the filter names a tenant that resolves to no schema,
`query_runs` short-circuits to `([], 0)` — no SQL statement is executed
and no exception is raised. -/
theorem C2_unresolvable_tenant_short_circuit (db : PgDB) (f : FilterSpec)
    (e : String) (sortBy : Option String) (sortOrder : String)
    (limit offset : Int)
    (he : f.experiment_id = some e) (hne : e ≠ "")
    (hunres : lookupExp db e = Option.none) :
    queryRuns db (some f) sortBy sortOrder limit offset = some (([], 0), []) := by
  unfold queryRuns scopeForExperiment
  simp [he, hne, hunres, SchemaScope.isEmpty]

/-- Witness for C2: the tenant `ghost` is unknown to `zeroDb`. -/
theorem C2_witness :
    queryRuns zeroDb (some { experiment_id := some "ghost" }) Option.none
      "desc" 100 0 = some (([], 0), []) :=
  C2_unresolvable_tenant_short_circuit zeroDb { experiment_id := some "ghost" }
    "ghost" Option.none "desc" 100 0 rfl (by decide) rfl

/-- Claim C3: a dot-less field path, an unrecognized namespace, an
ordering operator on a non-column `record` field, and any `derived.*`
field all compile to the empty fragment with no parameters — returned,
never raised. -/
theorem C3_permissive_filter_no_predicate (ff : FieldFilter) :
    (splitFirstDot ff.field = Option.none → buildFieldFilter ff = some ("", [])) ∧
    (∀ ns key, splitFirstDot ff.field = some (ns, key) →
      ns ≠ "record" → ns ≠ "params" → ns ≠ "metrics" → ns ≠ "derived" →
      buildFieldFilter ff = some ("", [])) ∧
    (∀ key, splitFirstDot ff.field = some ("record", key) →
      key ∉ recordTableColumns →
      (ff.op = .lt ∨ ff.op = .le ∨ ff.op = .gt ∨ ff.op = .ge) →
      buildFieldFilter ff = some ("", [])) ∧
    (∀ key, splitFirstDot ff.field = some ("derived", key) →
      buildFieldFilter ff = some ("", [])) := by
  refine ⟨?_, ?_, ?_, ?_⟩
  · intro h; unfold buildFieldFilter; rw [h]
  · intro ns key h h1 h2 h3 h4
    unfold buildFieldFilter; rw [h]
    simp [h1, h2, h3, h4]
  · intro key h hcols hops
    unfold buildFieldFilter; rw [h]
    rcases hops with h5 | h5 | h5 | h5 <;> simp [hcols, h5]
  · intro key h
    unfold buildFieldFilter; rw [h]
    simp

/-- Witness for C3: the spec scenario `derived.x gt 5` compiles to a
no-op. -/
theorem C3_witness :
    buildFieldFilter ⟨"derived.x", .gt, .i 5⟩ = some ("", []) :=
  (C3_permissive_filter_no_predicate ⟨"derived.x", .gt, .i 5⟩).2.2.2 "x"
    (by with_unfolding_all decide)

set_option maxRecDepth 4000 in
/-- Claim C4: for `error_bars = ci95` over n ≥ 2 samples the bounds are
center ± t·std/√n with t = 1.96 for n > 30 and otherwise the 95% t-table
entry for df = n−1; n = 35 uses 1.96, n = 5 uses the df = 4 entry 2.78,
and every df in 1..30 resolves to the entry of the nearest table key not
below it. -/
theorem C4_ci95_error_bounds (values : List Rat) (center : Rat)
    (h2 : 2 ≤ values.length) :
    (computeErrorBounds values center .ci95 =
      (some ((center : Real) - ci95Margin values),
       some ((center : Real) + ci95Margin values))) ∧
    tChosen 35 = 1.96 ∧
    tChosen 5 = tValue95 4 ∧
    tValue95 4 = 2.78 ∧
    (∀ df < 31, 1 ≤ df →
      ∃ p ∈ tTablePairs, df ≤ p.1 ∧
        (∀ q ∈ tTablePairs, df ≤ q.1 → p.1 ≤ q.1) ∧
        tValue95 df = p.2) := by
  refine ⟨?_, by with_unfolding_all decide, by with_unfolding_all decide,
    by with_unfolding_all decide, by with_unfolding_all decide⟩
  unfold computeErrorBounds ci95Margin tChosen sampleStd
  rw [if_neg (by simp only [not_or]; exact ⟨by simp, by omega⟩)]

/-- Witness for C4 at two samples; the t-value facts instantiated. -/
theorem C4_witness :
    tChosen 35 = 1.96 ∧ tChosen 5 = tValue95 4 ∧ tValue95 4 = 2.78 :=
  ⟨(C4_ci95_error_bounds [1, 2] 0 (by decide)).2.1,
   (C4_ci95_error_bounds [1, 2] 0 (by decide)).2.2.1,
   (C4_ci95_error_bounds [1, 2] 0 (by decide)).2.2.2.1⟩

/-- Claim C5: a histogram request matching at least one numeric value
returns `bin_count + 1` edges and counts summing to `total`, which is the
number of matched values; a request matching nothing returns the
degenerate `bins = [0, 1]`, `counts = [0]`, `total = 0` response. -/
theorem C5_histogram_arity_and_total (runs : List RunResponse)
    (req : HistogramRequest) :
    (histValues runs req.field ≠ [] → 1 ≤ req.bin_count →
      (histogramEndpoint runs req).bins.length = req.bin_count + 1 ∧
      (histogramEndpoint runs req).counts.sum = (histogramEndpoint runs req).total ∧
      (histogramEndpoint runs req).total = (histValues runs req.field).length) ∧
    (histValues runs req.field = [] →
      histogramEndpoint runs req = ⟨req.field, [0, 1], [0], 0, [[]]⟩) := by
  constructor
  · intro hne hbc
    have hvne : ((histValues runs req.field).map (·.1)).isEmpty = false := by
      simp [List.isEmpty_iff, hne]
    simp only [histogramEndpoint, hvne, Bool.false_eq_true, if_false]
    refine ⟨?_, ?_, ?_⟩
    · simp only [npHistogram]
      exact histEdges_length _ _ _
    · simp only [npHistogram]
      rw [sum_countP_range _ _ _ (fun v hv => binIdx_lt _ _ _ _ hbc)]
    · simp
  · intro he
    simp [histogramEndpoint, he]

/-- Witness for C5 over the three-run scenario with two bins. -/
theorem C5_witness :
    (histogramEndpoint scenarioRuns
        { field := "metrics.score", bin_count := 2 }).bins.length = 2 + 1 ∧
    (histogramEndpoint scenarioRuns
        { field := "metrics.score", bin_count := 2 }).counts.sum =
      (histogramEndpoint scenarioRuns
        { field := "metrics.score", bin_count := 2 }).total ∧
    (histogramEndpoint scenarioRuns
        { field := "metrics.score", bin_count := 2 }).total =
      (histValues scenarioRuns "metrics.score").length :=
  (C5_histogram_arity_and_total scenarioRuns
      { field := "metrics.score", bin_count := 2 }).1
    (by with_unfolding_all decide) (by decide)

set_option synthInstance.maxSize 512 in
/-- Claim C6: with an empty `group_by` every valid run lands in the single
group (and series) named `all`; a single grouping field keys by the bare
value, several by the pipe-joined values; and the three-run scenario
(`metrics.score` 10/20/30, `status = success`, mean over
`record.status`) yields one series `all` with the single point
`x = "success"`, `y = 20`, `n = 3`. -/
theorem C6_grouping_and_mean_scenario (runs : List RunResponse)
    (req : AggregateRequest) :
    (req.group_by = Option.none ∨ req.group_by = some [] →
      groupsOf runs req =
        (if (validRuns runs req.x_field req.y_field).isEmpty then []
         else [("all", validRuns runs req.x_field req.y_field)]) ∧
      ∀ s ∈ (computeAggregate runs req).series, s.name = "all") ∧
    (∀ run f, makeGroupKey run [f] = fieldKeyStr run f) ∧
    (∀ run gbs, 2 ≤ gbs.length →
      makeGroupKey run gbs = joinSep " | " (gbs.map (fieldKeyStr run))) ∧
    ((computeAggregate scenarioRuns scenarioReq).series.map
        (fun s => (s.name, s.points.map (fun p => (pyStr p.x, p.y, p.n, p.run_ids)))) =
      [("all", [("success", (20 : Rat), 3, some ["r1", "r2", "r3"])])] ∧
      (computeAggregate scenarioRuns scenarioReq).total_runs = 3) := by
  refine ⟨?_, ?_, ?_, by with_unfolding_all decide⟩
  · intro hgb
    have hkey : ∀ run, groupKeyOf req run = "all" := by
      intro run
      rcases hgb with h | h <;> simp [groupKeyOf, h]
    have hgroups : groupsOf runs req =
        (if (validRuns runs req.x_field req.y_field).isEmpty then []
         else [("all", validRuns runs req.x_field req.y_field)]) := by
      unfold groupsOf
      simp only [hkey]
      match validRuns runs req.x_field req.y_field with
      | [] => rfl
      | v :: vs =>
        rw [List.foldl_cons]
        have hstep : addToGroup [] "all" v = [("all", [v])] := rfl
        rw [hstep, foldl_addToGroup_const "all" vs [v]]
        rfl
    refine ⟨hgroups, ?_⟩
    intro s hs
    by_cases hemp : (validRuns runs req.x_field req.y_field).isEmpty
    · simp [computeAggregate, hemp] at hs
    · simp only [hemp, Bool.false_eq_true, if_false] at hgroups
      simp only [computeAggregate, hemp, Bool.false_eq_true, if_false] at hs
      rw [hgroups] at hs
      simp only [sortByKeyStr, List.foldr_cons, List.foldr_nil, insertByKey,
        List.flatMap_cons, List.flatMap_nil] at hs
      split at hs
      · simp at hs
      · simp at hs
        rw [hs]
  · intro run f
    rfl
  · intro run gbs h
    match gbs, h with
    | g1 :: g2 :: rest, _ => rfl

/-- Witness for C6: the pipe-joined multi-field key and the single `all`
group over the scenario runs. -/
theorem C6_witness :
    makeGroupKey (scenarioRun "r1" 10) ["metrics.score", "record.status"] =
      joinSep " | "
        (["metrics.score", "record.status"].map (fieldKeyStr (scenarioRun "r1" 10))) ∧
    groupsOf scenarioRuns scenarioReq =
      (if (validRuns scenarioRuns scenarioReq.x_field scenarioReq.y_field).isEmpty
       then []
       else [("all", validRuns scenarioRuns scenarioReq.x_field scenarioReq.y_field)]) :=
  ⟨(C6_grouping_and_mean_scenario scenarioRuns scenarioReq).2.2.1
      (scenarioRun "r1" 10) ["metrics.score", "record.status"] (by decide),
   ((C6_grouping_and_mean_scenario scenarioRuns scenarioReq).1 (Or.inl rfl)).1⟩

/-- Claim C7: `Scope.table` on one schema is the direct qualified
reference (with the alias appended when given), on two or more schemas a
parenthesized UNION ALL of per-schema `SELECT *` subqueries aliased as
one virtual table, and on an empty scope a raised error. -/
theorem C7_scope_table (name a : String) (al : Option String) :
    (SchemaScope.table ⟨[]⟩ name al = Option.none) ∧
    (∀ s, SchemaScope.table ⟨[s]⟩ name Option.none = some (s ++ "." ++ name)) ∧
    (∀ s, SchemaScope.table ⟨[s]⟩ name (some a) =
      some (s ++ "." ++ name ++ " " ++ a)) ∧
    (∀ ss, 2 ≤ ss.length →
      SchemaScope.table ⟨ss⟩ name al =
        some ("(" ++ joinSep " UNION ALL "
            (ss.map (fun s => "SELECT * FROM " ++ s ++ "." ++ name)) ++
          ") AS " ++ al.getD ("all_" ++ name))) := by
  refine ⟨rfl, fun s => rfl, fun s => rfl, ?_⟩
  intro ss h
  match ss, h with
  | s1 :: s2 :: rest, _ => rfl

/-- Witness for C7: the two-schema union for the `runs` table. -/
theorem C7_witness :
    SchemaScope.table ⟨["s1", "s2"]⟩ "runs" Option.none =
      some "(SELECT * FROM s1.runs UNION ALL SELECT * FROM s2.runs) AS all_runs" :=
  ((C7_scope_table "runs" "x" Option.none).2.2.2 ["s1", "s2"] (by decide)).trans
    (by with_unfolding_all decide)

/-- Claim C8: `search` keeps only groups with at least one hit or a
positive total, and a query matching nothing in any category returns an
empty groups list. -/
theorem C8_search_drops_empty_groups :
    (∀ db q limit gs, search db q limit = some gs →
      ∀ g ∈ gs, g.hits ≠ [] ∨ g.total > 0) ∧
    search zeroDb "exp" 5 = some [] := by
  constructor
  · intro db q limit gs h g hg
    unfold search at h
    simp only [Option.bind_eq_bind, Option.bind_eq_some, Option.pure_def,
      Option.some.injEq] at h
    obtain ⟨g1, h1, g2, h2, g3, h3, g4, h4, g5, h5, g6, h6, heq⟩ := h
    subst heq
    have hp := (List.mem_filter.mp hg).2
    rcases Bool.or_eq_true _ _ |>.mp hp with hh | ht
    · left
      simpa [List.isEmpty_iff] using hh
    · right
      exact of_decide_eq_true ht
  · with_unfolding_all decide

/-- Witness for C8: a kept group over a database reporting count-only
matches satisfies the kept-group property. -/
theorem C8_witness :
    ({ category := "field_names", label := "Field names", scope := "experiment",
       hits := [], total := 1 } : SearchGroup).hits ≠ [] ∨
    ({ category := "field_names", label := "Field names", scope := "experiment",
       hits := [], total := 1 } : SearchGroup).total > 0 :=
  C8_search_drops_empty_groups.1 oneDb "exp" 5
    [{ category := "field_names", label := "Field names", scope := "experiment",
       hits := [], total := 1 },
     { category := "runs", label := "Runs", scope := "run", hits := [], total := 1 },
     { category := "run_tags", label := "Run tags", scope := "run",
       hits := [], total := 1 }]
    (by with_unfolding_all decide) _ (by decide)

/-- Counterexample for C9: two runs with `metrics.score = 10` and
`bin_count = 2` produce edges `[9.5, 10, 10.5]` — the range defaults to
width 1.0 but each bin is 0.5 wide, so the claimed "bin width defaults to
1.0" is false (while all values do land in one bin). -/
theorem C9_counterexample :
    (histogramEndpoint [scenarioRun "r1" 10, scenarioRun "r2" 10]
        { field := "metrics.score", bin_count := 2 } =
      ⟨"metrics.score", [19/2, 10, 21/2], [0, 2], 2, [[], ["r1", "r2"]]⟩) ∧
    ¬ ((histogramEndpoint [scenarioRun "r1" 10, scenarioRun "r2" 10]
        { field := "metrics.score", bin_count := 2 }).bins.getD 1 0 -
       (histogramEndpoint [scenarioRun "r1" 10, scenarioRun "r2" 10]
        { field := "metrics.score", bin_count := 2 }).bins.getD 0 0 = 1) := by
  with_unfolding_all decide

/-- Claim C9 (amended): when all matched values equal `a`, the histogram
range defaults to `[a - 0.5, a + 0.5]` (total width 1.0, so each of the
`bin_count` bins has width `1/bin_count`), and exactly one bin is
populated, with count equal to `total`. -/
theorem C9_min_eq_max_amended (runs : List RunResponse)
    (req : HistogramRequest) (a : Rat)
    (hbc : 1 ≤ req.bin_count)
    (hne : histValues runs req.field ≠ [])
    (hall : ∀ p ∈ histValues runs req.field, p.1 = a) :
    (histogramEndpoint runs req).bins =
      (List.range (req.bin_count + 1)).map
        (fun (i : Nat) => a - 1/2 + (i : Rat) / (req.bin_count : Rat)) ∧
    ((histogramEndpoint runs req).counts.filter (fun c => c != 0)) =
      [(histogramEndpoint runs req).total] := by
  have hvals : ∀ x ∈ (histValues runs req.field).map (·.1), x = a := by
    intro x hx
    obtain ⟨p, hp, rfl⟩ := List.mem_map.mp hx
    exact hall p hp
  have hvne : (histValues runs req.field).map (·.1) ≠ [] := by
    simpa using hne
  have hmin := min?_const a _ hvne hvals
  have hmax := max?_const a _ hvne hvals
  have hrange : histRange ((histValues runs req.field).map (·.1)) =
      (a - 1/2, a + 1/2) := by
    simp [histRange, hmin, hmax]
  have hisE : ((histValues runs req.field).map (·.1)).isEmpty = false := by
    simp [List.isEmpty_iff, hvne]
  simp only [histogramEndpoint, hisE, Bool.false_eq_true, if_false,
    npHistogram, hrange]
  constructor
  · unfold histEdges
    apply List.map_congr_left
    intro i hi
    have h1 : (a + 1/2) - (a - 1/2) = 1 := by ring
    rw [h1]
    ring
  · have hcnt : ∀ j, ((histValues runs req.field).map (·.1)).countP
        (fun v => binIdx (a - 1/2) (a + 1/2) req.bin_count v == j) =
        if (binIdx (a - 1/2) (a + 1/2) req.bin_count a == j) then
          ((histValues runs req.field).map (·.1)).length else 0 := by
      intro j
      exact countP_const _ a _ hvals
    rw [List.map_congr_left (fun j _ => hcnt j)]
    refine oneHot_filter _ _ ?_ _ (binIdx_lt _ _ _ _ hbc)
    simpa using hvne

/-- Witness for C9 (amended) at the counterexample input. -/
theorem C9_witness :
    (histogramEndpoint [scenarioRun "r1" 10, scenarioRun "r2" 10]
        { field := "metrics.score", bin_count := 2 }).bins =
      (List.range (2 + 1)).map
        (fun (i : Nat) => 10 - 1/2 + (i : Rat) / ((2 : Nat) : Rat)) ∧
    ((histogramEndpoint [scenarioRun "r1" 10, scenarioRun "r2" 10]
        { field := "metrics.score", bin_count := 2 }).counts.filter
          (fun c => c != 0)) =
      [(histogramEndpoint [scenarioRun "r1" 10, scenarioRun "r2" 10]
        { field := "metrics.score", bin_count := 2 }).total] :=
  C9_min_eq_max_amended [scenarioRun "r1" 10, scenarioRun "r2" 10]
    { field := "metrics.score", bin_count := 2 } 10 (by decide)
    (by with_unfolding_all decide) (by with_unfolding_all decide)

/-- Claim C10: both row converters normalize running runs — whenever the
produced response has status `running`, its `finished_at` and
`duration_ms` are `None`, regardless of the stored row contents. -/
theorem C10_running_normalization :
    (∀ row resp, slimRowToRunResponse row = some resp →
      resp.record.status = Status.running →
      resp.record.finished_at = Option.none ∧
        resp.record.duration_ms = Option.none) ∧
    (∀ rid json der resp, rowToRunResponse rid json der = some resp →
      resp.record.status = Status.running →
      resp.record.finished_at = Option.none ∧
        resp.record.duration_ms = Option.none) := by
  constructor
  · intro row resp h hrun
    unfold slimRowToRunResponse at h
    split at h
    · simp only [Option.bind_eq_bind, Option.bind_eq_some, Option.pure_def,
        Option.some.injEq] at h
      obtain ⟨j, hj, sc, hsc, ids, hids, heq⟩ := h
      obtain ⟨params, metrics, tags, error, prov, warns, derived⟩ := j
      obtain ⟨st, sa, fin, dur⟩ := sc
      obtain ⟨rid, eid, cf, pf, sf⟩ := ids
      subst heq
      exact scalarFields_running _ _ _ _ _ _ _ _ hsc hrun
    · simp at h
  · intro rid json der resp h hrun
    unfold rowToRunResponse at h
    simp only [Option.bind_eq_bind, Option.bind_eq_some, Option.pure_def,
      Option.some.injEq] at h
    obtain ⟨data, hdata, pd, hpd, prov, hprov, a0, ha0, arts, harts,
      sc, hsc, ids, hids, j, hj, heq⟩ := h
    obtain ⟨st, sa, fin, dur⟩ := sc
    obtain ⟨rid2, eid, cf, pf, sf⟩ := ids
    obtain ⟨error, tags, warns, notes, params, metrics⟩ := j
    subst heq
    exact scalarFields_running _ _ _ _ _ _ _ _ hsc hrun

/-- Witness for C10: rows that store a finish time and duration for
running runs are normalized to `None` by both converters. -/
theorem C10_witness :
    slimRunningResp.record.finished_at = Option.none ∧
    slimRunningResp.record.duration_ms = Option.none ∧
    fullRunningResp.record.finished_at = Option.none ∧
    fullRunningResp.record.duration_ms = Option.none := by
  have h1 := C10_running_normalization.1 slimRunningRow slimRunningResp
    (by rfl) (by rfl)
  have h2 := C10_running_normalization.2 "r1" fullRunningJson Option.none
    fullRunningResp (by rfl) (by rfl)
  exact ⟨h1.1, h1.2, h2.1, h2.2⟩

end Atlas
